import Mathlib

/-!
The header `lindenb/math/geometry.h`.

A shallow embedding of the classes `Point`, `Line` and `Circle` of
`src/core/lindenb/math/geometry.h` (C++ namespace `lindenb::math::geom`).

The file holds two embeddings of the same source.

The exact embedding (`Point.translate`, `Line.intersection`,
`Circle.intersection`, ...) reads a C++ `double` as an element of a linearly
ordered field `K`, without rounding, underflow or overflow.  It is the reading
of the statements that are made "over exact reals".

* Every definition is computable for a `K` with computable operations (for
  instance `ℚ`); the theorems hold for every such `K`, in particular for `ℝ`.
* `hypot` comes from the C library and is passed to the functions that call
  it as the parameter `hypot : K → K → K`.  Over `ℝ` it is
  `fun x y => Real.sqrt (x * x + y * y)`.

The binary64 embedding (namespace `binary64`) reads a `double` as a value of
the type `Double` below and rounds every arithmetic operation of the source to
nearest, ties to even, with gradual underflow, overflow to infinity and NaN.
It shows where a statement that holds over exact reals fails on doubles.

In both embeddings:

* An output parameter `Point* result` is an `Option (Point K)`: `none` is the
  `NULL` pointer, `some q` is a pointer to a point that currently holds `q`.
  A function with output parameters returns, next to its C++ return value,
  the contents of the pointees after the call.
* The receiver `*this` is the first explicit argument, called `self`.
-/

namespace lindenb.math.geom

/-- The class `Point`: two public `double` fields `x` and `y`. -/
structure Point (K : Type) where
  x : K
  y : K
  deriving DecidableEq

/-- The enumeration `Line::Intersection`, in declaration order. -/
inductive Intersection where
  | PARALLEL
  | COINCIDENT
  | NO_INTERESECTION
  | INTERESECTION
  deriving DecidableEq

/-- The class `Line`: two public points `p1` and `p2`. -/
structure Line (K : Type) where
  p1 : Point K
  p2 : Point K

/-- The class `Circle`: a public `center` and a radius `r`. -/
structure Circle (K : Type) where
  center : Point K
  r : K

variable {K : Type} [LinearOrderedField K]

/-- The default constructor `Point()`: the origin. -/
def Point.default : Point K := ⟨0, 0⟩

/-- The method `Point::translate`: `x += dx; y += dy; return *this;`. -/
def Point.translate (self : Point K) (dx dy : K) : Point K :=
  ⟨self.x + dx, self.y + dy⟩

/-- The method `Point::distanceSq`: `pow(x-other.x,2.0) + pow(y-other.y,2)`. -/
def Point.distanceSq (self other : Point K) : K :=
  (self.x - other.x) ^ 2 + (self.y - other.y) ^ 2

/-- The method `Point::distance`: `hypot(x-other.x, y-other.y)`. -/
def Point.distance (hypot : K → K → K) (self other : Point K) : K :=
  hypot (self.x - other.x) (self.y - other.y)

/-- The constructor `Line(x1,y1,x2,y2)`. -/
def Line.ofCoords (x1 y1 x2 y2 : K) : Line K := ⟨⟨x1, y1⟩, ⟨x2, y2⟩⟩

/-- The method `Line::midX`: `(p2.x + p1.x)/2.0`. -/
def Line.midX (self : Line K) : K := (self.p2.x + self.p1.x) / 2

/-- The method `Line::midY`: `(p2.y + p1.y)/2.0`. -/
def Line.midY (self : Line K) : K := (self.p2.y + self.p1.y) / 2

/-- The method `Line::dx`: `p2.x - p1.x`. -/
def Line.dx (self : Line K) : K := self.p2.x - self.p1.x

/-- The method `Line::dy`: `p2.y - p1.y`. -/
def Line.dy (self : Line K) : K := self.p2.y - self.p1.y

/-- The method `Line::translate`: both end points are translated. -/
def Line.translate (self : Line K) (dx dy : K) : Line K :=
  ⟨self.p1.translate dx dy, self.p2.translate dx dy⟩

/-- The local `denom` of `Line::intersection`. -/
def Line.denom (self other : Line K) : K :=
  other.dy * self.dx - other.dx * self.dy

/-- The local `nume_a` of `Line::intersection`. -/
def Line.nume_a (self other : Line K) : K :=
  (other.dx * (self.p1.y - other.p1.y)) - (other.dy * (self.p1.x - other.p1.x))

/-- The local `nume_b` of `Line::intersection`. -/
def Line.nume_b (self other : Line K) : K :=
  (self.dx * (self.p1.y - other.p1.y)) - self.dy * (self.p1.x - other.p1.x)

/-- The method `Line::intersection(const Line& other, Point* result)`.
The first component is the returned classification, the second the contents
of `result` after the call. -/
def Line.intersection (self other : Line K) (result : Option (Point K)) :
    Intersection × Option (Point K) :=
  let denom := self.denom other
  let nume_a := self.nume_a other
  let nume_b := self.nume_b other
  if denom = 0 then
    if nume_a = 0 ∧ nume_b = 0 then
      (Intersection.COINCIDENT, result)
    else
      (Intersection.PARALLEL, result)
  else
    let ua := nume_a / denom
    match result with
    | some _ =>
      (Intersection.INTERESECTION,
        some ⟨self.p1.x + ua * self.dx, self.p1.y + ua * self.dy⟩)
    | none => (Intersection.INTERESECTION, none)

/-- The constructor `Circle(cx,cy,r)`. -/
def Circle.ofCoords (cx cy r : K) : Circle K := ⟨⟨cx, cy⟩, r⟩

/-- The method `Circle::diameter`: `r*2.0`. -/
def Circle.diameter (self : Circle K) : K := self.r * 2

/-- The method `Circle::intersection(const Circle& other, Point* p1, Point* p2)`.
The first component is the returned `bool`, the second and third are the
contents of `p1` and `p2` after the call. -/
def Circle.intersection (hypot : K → K → K) (self other : Circle K)
    (p1 p2 : Option (Point K)) : Bool × Option (Point K) × Option (Point K) :=
  let dx := other.center.x - self.center.x
  let dy := other.center.y - self.center.y
  let d := hypot dx dy
  if d > self.r + other.r then
    (false, p1, p2)
  else if d < |self.r - other.r| then
    (false, p1, p2)
  else if self.r = other.r ∧ dx = 0 ∧ dy = 0 then
    (false, p1, p2)
  else
    let a := ((self.r * self.r) - (other.r * other.r) + (d * d)) / (2 * d)
    let x2 := self.center.x + (dx * a / d)
    let y2 := self.center.y + (dy * a / d)
    let h := hypot self.r a
    let rx := -dy * (h / d)
    let ry := dx * (h / d)
    (true,
      (match p1 with
        | some _ => some ⟨x2 + rx, y2 + ry⟩
        | none => none),
      (match p2 with
        | some _ => some ⟨x2 - rx, y2 - ry⟩
        | none => none))

/-- The method `Circle::intersects`: `intersection(cp,NULL,NULL)`. -/
def Circle.intersects (hypot : K → K → K) (self cp : Circle K) : Bool :=
  (Circle.intersection hypot self cp none none).1

/-- The cross product `(q - o) × (vx, vy)` of the vector from `o` to `q` with
the direction `(vx, vy)`. -/
def cross (q o : Point K) (vx vy : K) : K :=
  (q.x - o.x) * vy - (q.y - o.y) * vx

/-- The point `q` lies on the infinite line through `p1` and `p2`:
`q = p1 + t * (dx, dy)` for some `t`. -/
def Line.Contains (self : Line K) (q : Point K) : Prop :=
  ∃ t : K, q.x = self.p1.x + t * self.dx ∧ q.y = self.p1.y + t * self.dy

/-- The contract of the C library's `hypot` over exact arithmetic: `hypot x y`
is the non-negative number whose square is `x*x + y*y`.  Over `ℝ` this holds
for `fun x y => Real.sqrt (x * x + y * y)` and for no other function. -/
def IsHypot (hypot : K → K → K) : Prop :=
  ∀ x y : K, 0 ≤ hypot x y ∧ hypot x y * hypot x y = x * x + y * y

/-! The binary64 embedding. -/

/-- A binary64 value (`double`): a finite number, given by its exact rational
value, an infinity with its sign (`true` for negative), or NaN.  The two zeros
of binary64 are identified (they compare equal in C++). -/
inductive Double where
  | fin (q : ℚ)
  | inf (neg : Bool)
  | nan
  deriving DecidableEq

/-- Auxiliary for `Double.log2`, by recursion on a bound for the number of bits. -/
def Double.log2Aux : ℕ → ℕ → ℕ
  | 0, _ => 0
  | f + 1, n => if 2 ≤ n then Double.log2Aux f (n / 2) + 1 else 0

/-- The position of the leading bit of `n`: the greatest `k` with `2^k ≤ n`. -/
def Double.log2 (n : ℕ) : ℕ := Double.log2Aux n n

/-- Whether `2^k ≤ n/d`. -/
def Double.pow2le (k : ℤ) (n d : ℕ) : Bool :=
  if 0 ≤ k then decide (d * 2 ^ k.toNat ≤ n) else decide (d ≤ n * 2 ^ (-k).toNat)

/-- The binary exponent of the positive rational `n/d`: the greatest `k` with
`2^k ≤ n/d`. -/
def Double.ilog2 (n d : ℕ) : ℤ :=
  let k : ℤ := (Double.log2 n : ℤ) - (Double.log2 d : ℤ)
  if Double.pow2le k n d then k else k - 1

/-- The integer nearest to `N/D`, ties to even. -/
def Double.rne (N D : ℕ) : ℕ :=
  let f := N / D
  let r := N % D
  if 2 * r < D then f else if D < 2 * r then f + 1 else if f % 2 = 0 then f else f + 1

/-- The double `± m * 2^t`, or the infinity of that sign when `m * 2^t` is
`2^1024` or more. -/
def Double.pack (neg : Bool) (m : ℕ) (t : ℤ) : Double :=
  if 2 ^ 1024 ≤ m * 2 ^ t.toNat then Double.inf neg
  else
    Double.fin (mkRat
      (if neg then -((m * 2 ^ t.toNat : ℕ) : ℤ) else ((m * 2 ^ t.toNat : ℕ) : ℤ))
      (2 ^ (-t).toNat))

/-- Rounding of a real result to binary64, to nearest, ties to even: 53
significant bits, no bit below `2^-1074` (gradual underflow), overflow to
infinity. -/
def Double.ofRat (q : ℚ) : Double :=
  if q = 0 then Double.fin 0
  else
    let n := q.num.natAbs
    let d := q.den
    let t : ℤ := max (Double.ilog2 n d - 52) (-1074)
    Double.pack (decide (q < 0)) (Double.rne (n * 2 ^ (-t).toNat) (d * 2 ^ t.toNat)) t

/-- Auxiliary for `Double.isqrt`: the bits of the root, from bit `i - 1` down. -/
def Double.sqrtAux : ℕ → ℕ → ℕ → ℕ
  | 0, _, r => r
  | i + 1, n, r =>
    if (r + 2 ^ i) * (r + 2 ^ i) ≤ n then Double.sqrtAux i n (r + 2 ^ i)
    else Double.sqrtAux i n r

/-- The integer square root: the greatest `r` with `r * r ≤ n`. -/
def Double.isqrt (n : ℕ) : ℕ := Double.sqrtAux (Double.log2 n / 2 + 1) n 0

/-- The square root of a non-negative rational, rounded to binary64 (to nearest,
ties to even). -/
def Double.sqrtRat (q : ℚ) : Double :=
  if q ≤ 0 then Double.fin 0
  else
    let n := q.num.natAbs
    let d := q.den
    let t : ℤ := max (Double.ilog2 n d / 2 - 52) (-1074)
    let N := n * 4 ^ (-t).toNat
    let D := d * 4 ^ t.toNat
    let f := Double.isqrt (N / D)
    let m := if 4 * N < (2 * f + 1) * (2 * f + 1) * D then f
      else if (2 * f + 1) * (2 * f + 1) * D < 4 * N then f + 1
      else if f % 2 = 0 then f else f + 1
    Double.pack false m t

/-- Unary minus. -/
def Double.neg : Double → Double
  | Double.fin x => Double.fin (-x)
  | Double.inf a => Double.inf (!a)
  | Double.nan => Double.nan

/-- The operator `+` of `double`. -/
def Double.add : Double → Double → Double
  | Double.fin x, Double.fin y => Double.ofRat (x + y)
  | Double.fin _, Double.inf b => Double.inf b
  | Double.inf a, Double.fin _ => Double.inf a
  | Double.inf a, Double.inf b => if a = b then Double.inf a else Double.nan
  | Double.nan, _ => Double.nan
  | _, Double.nan => Double.nan

/-- The operator `-` of `double`. -/
def Double.sub (x y : Double) : Double := Double.add x (Double.neg y)

/-- The operator `*` of `double`. -/
def Double.mul : Double → Double → Double
  | Double.fin x, Double.fin y => Double.ofRat (x * y)
  | Double.fin x, Double.inf b =>
    if x = 0 then Double.nan else Double.inf (xor (decide (x < 0)) b)
  | Double.inf a, Double.fin y =>
    if y = 0 then Double.nan else Double.inf (xor a (decide (y < 0)))
  | Double.inf a, Double.inf b => Double.inf (xor a b)
  | Double.nan, _ => Double.nan
  | _, Double.nan => Double.nan

/-- The operator `/` of `double`.  A zero divisor is taken as `+0`. -/
def Double.div : Double → Double → Double
  | Double.fin x, Double.fin y =>
    if y = 0 then (if x = 0 then Double.nan else Double.inf (decide (x < 0)))
    else Double.ofRat (x / y)
  | Double.fin _, Double.inf _ => Double.fin 0
  | Double.inf a, Double.fin y => Double.inf (xor a (decide (y < 0)))
  | Double.inf _, Double.inf _ => Double.nan
  | Double.nan, _ => Double.nan
  | _, Double.nan => Double.nan

/-- The function `std::fabs`. -/
def Double.fabs : Double → Double
  | Double.fin x => Double.fin |x|
  | Double.inf _ => Double.inf false
  | Double.nan => Double.nan

/-- The operator `==` of `double`: false as soon as one side is NaN. -/
def Double.eq : Double → Double → Bool
  | Double.fin x, Double.fin y => decide (x = y)
  | Double.inf a, Double.inf b => decide (a = b)
  | _, _ => false

/-- The operator `<` of `double`: false as soon as one side is NaN. -/
def Double.lt : Double → Double → Bool
  | Double.fin x, Double.fin y => decide (x < y)
  | Double.fin _, Double.inf b => !b
  | Double.inf a, Double.fin _ => a
  | Double.inf a, Double.inf b => a && !b
  | Double.nan, _ => false
  | _, Double.nan => false

/-- The operator `>` of `double`. -/
def Double.gt (x y : Double) : Bool := Double.lt y x

/-- The C library's `hypot`: the square root of `x*x + y*y`, computed without
intermediate overflow and rounded once; infinite as soon as one argument is
infinite, otherwise NaN as soon as one argument is NaN. -/
def Double.hypot : Double → Double → Double
  | Double.fin x, Double.fin y => Double.sqrtRat (x * x + y * y)
  | Double.inf _, _ => Double.inf false
  | _, Double.inf _ => Double.inf false
  | Double.nan, Double.fin _ => Double.nan
  | Double.fin _, Double.nan => Double.nan
  | Double.nan, Double.nan => Double.nan

/-- The call `std::pow(x, 2.0)`: the rounded square of `x`. -/
def Double.pow2 (x : Double) : Double := Double.mul x x

namespace binary64

/-- The method `Point::translate` on doubles: `x += dx; y += dy; return *this;`. -/
def Point.translate (self : Point Double) (dx dy : Double) : Point Double :=
  ⟨Double.add self.x dx, Double.add self.y dy⟩

/-- The method `Point::distanceSq` on doubles. -/
def Point.distanceSq (self other : Point Double) : Double :=
  Double.add (Double.pow2 (Double.sub self.x other.x))
    (Double.pow2 (Double.sub self.y other.y))

/-- The method `Point::distance` on doubles. -/
def Point.distance (self other : Point Double) : Double :=
  Double.hypot (Double.sub self.x other.x) (Double.sub self.y other.y)

/-- The method `Line::dx` on doubles. -/
def Line.dx (self : Line Double) : Double := Double.sub self.p2.x self.p1.x

/-- The method `Line::dy` on doubles. -/
def Line.dy (self : Line Double) : Double := Double.sub self.p2.y self.p1.y

/-- The method `Line::translate` on doubles. -/
def Line.translate (self : Line Double) (dx dy : Double) : Line Double :=
  ⟨Point.translate self.p1 dx dy, Point.translate self.p2 dx dy⟩

/-- The method `Line::intersection` on doubles, each operation rounded. -/
def Line.intersection (self other : Line Double) (result : Option (Point Double)) :
    Intersection × Option (Point Double) :=
  let denom := Double.sub (Double.mul (Line.dy other) (Line.dx self))
    (Double.mul (Line.dx other) (Line.dy self))
  let nume_a := Double.sub
    (Double.mul (Line.dx other) (Double.sub self.p1.y other.p1.y))
    (Double.mul (Line.dy other) (Double.sub self.p1.x other.p1.x))
  let nume_b := Double.sub
    (Double.mul (Line.dx self) (Double.sub self.p1.y other.p1.y))
    (Double.mul (Line.dy self) (Double.sub self.p1.x other.p1.x))
  if Double.eq denom (Double.fin 0) then
    if Double.eq nume_a (Double.fin 0) && Double.eq nume_b (Double.fin 0) then
      (Intersection.COINCIDENT, result)
    else
      (Intersection.PARALLEL, result)
  else
    let ua := Double.div nume_a denom
    match result with
    | some _ =>
      (Intersection.INTERESECTION,
        some ⟨Double.add self.p1.x (Double.mul ua (Line.dx self)),
          Double.add self.p1.y (Double.mul ua (Line.dy self))⟩)
    | none => (Intersection.INTERESECTION, none)

/-- The method `Circle::intersection` on doubles, each operation rounded. -/
def Circle.intersection (self other : Circle Double) (p1 p2 : Option (Point Double)) :
    Bool × Option (Point Double) × Option (Point Double) :=
  let dx := Double.sub other.center.x self.center.x
  let dy := Double.sub other.center.y self.center.y
  let d := Double.hypot dx dy
  if Double.gt d (Double.add self.r other.r) then
    (false, p1, p2)
  else if Double.lt d (Double.fabs (Double.sub self.r other.r)) then
    (false, p1, p2)
  else if Double.eq self.r other.r && Double.eq dx (Double.fin 0)
      && Double.eq dy (Double.fin 0) then
    (false, p1, p2)
  else
    let a := Double.div
      (Double.add (Double.sub (Double.mul self.r self.r) (Double.mul other.r other.r))
        (Double.mul d d))
      (Double.mul (Double.fin 2) d)
    let x2 := Double.add self.center.x (Double.div (Double.mul dx a) d)
    let y2 := Double.add self.center.y (Double.div (Double.mul dy a) d)
    let h := Double.hypot self.r a
    let rx := Double.mul (Double.neg dy) (Double.div h d)
    let ry := Double.mul dx (Double.div h d)
    (true,
      (match p1 with
        | some _ => some ⟨Double.add x2 rx, Double.add y2 ry⟩
        | none => none),
      (match p2 with
        | some _ => some ⟨Double.sub x2 rx, Double.sub y2 ry⟩
        | none => none))

end binary64

/-! Theorems about `Line.intersection`. -/

theorem Line.intersection_fst (self other : Line K) (result : Option (Point K)) :
    (Line.intersection self other result).1 =
      if self.denom other = 0 then
        if self.nume_a other = 0 ∧ self.nume_b other = 0 then Intersection.COINCIDENT
        else Intersection.PARALLEL
      else Intersection.INTERESECTION := by
  unfold Line.intersection
  by_cases h : self.denom other = 0
  · by_cases h2 : self.nume_a other = 0 ∧ self.nume_b other = 0 <;> simp [h, h2]
  · cases result <;> simp [h]

theorem Line.intersection_snd_of_denom_eq_zero (self other : Line K)
    (result : Option (Point K)) (h : self.denom other = 0) :
    (Line.intersection self other result).2 = result := by
  unfold Line.intersection
  by_cases h2 : self.nume_a other = 0 ∧ self.nume_b other = 0 <;> simp [h, h2]

theorem Line.intersection_of_denom_ne_zero (self other : Line K) (q : Point K)
    (h : self.denom other ≠ 0) :
    Line.intersection self other (some q) =
      (Intersection.INTERESECTION,
        some ⟨self.p1.x + self.nume_a other / self.denom other * self.dx,
          self.p1.y + self.nume_a other / self.denom other * self.dy⟩) := by
  unfold Line.intersection
  simp [h]

/-- C1: when `denom = other.dy*dx - other.dx*dy` is not zero, `Line.intersection`
returns `INTERESECTION` (with or without a result pointer), and the point it
writes has cross product zero with the direction of each line, measured from
that line's `p1`: it lies on both infinite lines. -/
theorem Line.intersection_point_on_both_lines (self other : Line K)
    (hden : other.dy * self.dx - other.dx * self.dy ≠ 0) :
    (∀ result, (Line.intersection self other result).1 = Intersection.INTERESECTION) ∧
    ∀ q, ∃ pt, (Line.intersection self other (some q)).2 = some pt ∧
      cross pt self.p1 self.dx self.dy = 0 ∧
      cross pt other.p1 other.dx other.dy = 0 := by
  have hd : self.denom other ≠ 0 := hden
  refine ⟨fun result => ?_, fun q => ?_⟩
  · rw [Line.intersection_fst, if_neg hd]
  · refine ⟨_, by rw [Line.intersection_of_denom_ne_zero self other q hd], ?_, ?_⟩
    · simp only [cross]
      ring
    · simp only [cross]
      have key : self.nume_a other / self.denom other * self.denom other
          = self.nume_a other := div_mul_cancel₀ _ hd
      have e : (self.p1.x + self.nume_a other / self.denom other * self.dx - other.p1.x)
            * other.dy
          - (self.p1.y + self.nume_a other / self.denom other * self.dy - other.p1.y)
            * other.dx
          = self.nume_a other / self.denom other * self.denom other
            - self.nume_a other := by
        simp only [Line.denom, Line.nume_a]
        ring
      rw [e, key, sub_self]

/-- Witness of C1: the lines through (0,0),(1,1) and through (0,2),(2,0) have
`denom = -4`; the call writes (1,1) over the caller's (7,7), and (1,1) lies on
both lines. -/
theorem Line.intersection_point_on_both_lines_witness :
    (Line.ofCoords (0 : ℚ) 2 2 0).dy * (Line.ofCoords (0 : ℚ) 0 1 1).dx
      - (Line.ofCoords (0 : ℚ) 2 2 0).dx * (Line.ofCoords (0 : ℚ) 0 1 1).dy ≠ 0 ∧
    Line.intersection (Line.ofCoords (0 : ℚ) 0 1 1) (Line.ofCoords 0 2 2 0) (some ⟨7, 7⟩)
      = (Intersection.INTERESECTION, some ⟨1, 1⟩) ∧
    cross (⟨1, 1⟩ : Point ℚ) (Line.ofCoords (0 : ℚ) 0 1 1).p1
      (Line.ofCoords (0 : ℚ) 0 1 1).dx (Line.ofCoords (0 : ℚ) 0 1 1).dy = 0 ∧
    cross (⟨1, 1⟩ : Point ℚ) (Line.ofCoords (0 : ℚ) 2 2 0).p1
      (Line.ofCoords (0 : ℚ) 2 2 0).dx (Line.ofCoords (0 : ℚ) 2 2 0).dy = 0 := by
  have hden : (Line.ofCoords (0 : ℚ) 2 2 0).dy * (Line.ofCoords (0 : ℚ) 0 1 1).dx
      - (Line.ofCoords (0 : ℚ) 2 2 0).dx * (Line.ofCoords (0 : ℚ) 0 1 1).dy ≠ 0 := by
    norm_num [Line.ofCoords, Line.dx, Line.dy]
  have hev : Line.intersection (Line.ofCoords (0 : ℚ) 0 1 1) (Line.ofCoords 0 2 2 0)
      (some ⟨7, 7⟩) = (Intersection.INTERESECTION, some ⟨1, 1⟩) := by
    norm_num [Line.intersection, Line.ofCoords, Line.denom, Line.nume_a, Line.nume_b,
      Line.dx, Line.dy]
  obtain ⟨pt, hpt, c1, c2⟩ := (Line.intersection_point_on_both_lines
    (Line.ofCoords (0 : ℚ) 0 1 1) (Line.ofCoords 0 2 2 0) hden).2 ⟨7, 7⟩
  rw [hev] at hpt
  have e : (⟨1, 1⟩ : Point ℚ) = pt := Option.some.inj hpt
  subst e
  exact ⟨hden, hev, c1, c2⟩

/-- C3: with `denom`, `numA` and `numB` as in the claim, `Line.intersection`
returns `COINCIDENT` when `denom = 0`, `numA = 0` and `numB = 0`, returns
`PARALLEL` when `denom = 0` and one of `numA`, `numB` is not zero, and otherwise
returns `INTERESECTION` and writes `(p1.x + ua*dx, p1.y + ua*dy)` with
`ua = numA / denom` into the result (a `NULL` result stays `NULL`). -/
theorem Line.intersection_classification (self other : Line K)
    (result : Option (Point K)) :
    let denom := other.dy * self.dx - other.dx * self.dy
    let numA := other.dx * (self.p1.y - other.p1.y) - other.dy * (self.p1.x - other.p1.x)
    let numB := self.dx * (self.p1.y - other.p1.y) - self.dy * (self.p1.x - other.p1.x)
    (denom = 0 → numA = 0 → numB = 0 →
      (Line.intersection self other result).1 = Intersection.COINCIDENT) ∧
    (denom = 0 → (numA ≠ 0 ∨ numB ≠ 0) →
      (Line.intersection self other result).1 = Intersection.PARALLEL) ∧
    (denom ≠ 0 →
      (Line.intersection self other result).1 = Intersection.INTERESECTION ∧
      (∀ q, result = some q → (Line.intersection self other result).2 =
        some ⟨self.p1.x + numA / denom * self.dx, self.p1.y + numA / denom * self.dy⟩) ∧
      (result = none → (Line.intersection self other result).2 = none)) := by
  intro denom numA numB
  have hd : self.denom other = denom := rfl
  have ha : self.nume_a other = numA := rfl
  have hb : self.nume_b other = numB := rfl
  refine ⟨fun h0 hA hB => ?_, fun h0 hAB => ?_, fun h0 => ⟨?_, fun q hq => ?_, fun hq => ?_⟩⟩
  · rw [Line.intersection_fst, hd, ha, hb, if_pos h0, if_pos ⟨hA, hB⟩]
  · have hn : ¬ (numA = 0 ∧ numB = 0) := fun h => hAB.elim (fun h1 => h1 h.1) (fun h2 => h2 h.2)
    rw [Line.intersection_fst, hd, ha, hb, if_pos h0, if_neg hn]
  · rw [Line.intersection_fst, hd, if_neg h0]
  · subst hq
    rw [Line.intersection_of_denom_ne_zero self other q h0]
    rfl
  · subst hq
    unfold Line.intersection
    rw [hd]
    simp [h0]

/-- Witness of C3: one pair of lines for each of the three cases. -/
theorem Line.intersection_classification_witness :
    (Line.intersection (Line.ofCoords (0 : ℚ) 0 1 1) (Line.ofCoords 2 2 3 3) none).1
      = Intersection.COINCIDENT ∧
    (Line.intersection (Line.ofCoords (0 : ℚ) 0 1 1) (Line.ofCoords 0 1 1 2) none).1
      = Intersection.PARALLEL ∧
    (Line.intersection (Line.ofCoords (0 : ℚ) 0 1 1) (Line.ofCoords 0 2 2 0)
      (some ⟨7, 7⟩)).1 = Intersection.INTERESECTION ∧
    (Line.intersection (Line.ofCoords (0 : ℚ) 0 1 1) (Line.ofCoords 0 2 2 0)
      (some ⟨7, 7⟩)).2 = some ⟨1, 1⟩ := by
  refine ⟨?_, ?_, ?_, ?_⟩
  · exact (Line.intersection_classification (Line.ofCoords (0 : ℚ) 0 1 1)
      (Line.ofCoords 2 2 3 3) none).1
      (by norm_num [Line.ofCoords, Line.dx, Line.dy])
      (by norm_num [Line.ofCoords, Line.dx, Line.dy])
      (by norm_num [Line.ofCoords, Line.dx, Line.dy])
  · exact (Line.intersection_classification (Line.ofCoords (0 : ℚ) 0 1 1)
      (Line.ofCoords 0 1 1 2) none).2.1
      (by norm_num [Line.ofCoords, Line.dx, Line.dy])
      (Or.inl (by norm_num [Line.ofCoords, Line.dx, Line.dy]))
  · exact ((Line.intersection_classification (Line.ofCoords (0 : ℚ) 0 1 1)
      (Line.ofCoords 0 2 2 0) (some ⟨7, 7⟩)).2.2
      (by norm_num [Line.ofCoords, Line.dx, Line.dy])).1
  · have h := ((Line.intersection_classification (Line.ofCoords (0 : ℚ) 0 1 1)
      (Line.ofCoords 0 2 2 0) (some ⟨7, 7⟩)).2.2
      (by norm_num [Line.ofCoords, Line.dx, Line.dy])).2.1 ⟨7, 7⟩ rfl
    rw [h]
    norm_num [Line.ofCoords, Line.dx, Line.dy]

theorem Point.ne_iff (p q : Point K) : p ≠ q ↔ p.x ≠ q.x ∨ p.y ≠ q.y := by
  constructor
  · intro h
    by_contra hc
    push_neg at hc
    apply h
    cases p
    cases q
    simp only [Point.mk.injEq]
    exact hc
  · rintro h rfl
    exact h.elim (fun h1 => h1 rfl) (fun h2 => h2 rfl)

theorem Line.dir_ne_zero (self : Line K) (h : self.p1 ≠ self.p2) :
    self.dx ≠ 0 ∨ self.dy ≠ 0 := by
  rcases (Point.ne_iff _ _).1 h with hx | hy
  · exact Or.inl (fun h0 => hx (sub_eq_zero.1 h0).symm)
  · exact Or.inr (fun h0 => hy (sub_eq_zero.1 h0).symm)

theorem eq_zero_of_mul_dir (c a b : K) (h : a ≠ 0 ∨ b ≠ 0) (ha : c * a = 0)
    (hb : c * b = 0) : c = 0 := by
  rcases h with h | h
  · exact (mul_eq_zero.1 ha).resolve_right h
  · exact (mul_eq_zero.1 hb).resolve_right h

/-- On a non-degenerate line, membership is the vanishing of the cross product. -/
theorem Line.contains_iff_cross (self : Line K) (q : Point K)
    (h : self.dx ≠ 0 ∨ self.dy ≠ 0) :
    self.Contains q ↔ cross q self.p1 self.dx self.dy = 0 := by
  unfold Line.Contains cross
  constructor
  · rintro ⟨t, hx, hy⟩
    rw [hx, hy]
    ring
  · intro hc
    rcases h with h | h
    · refine ⟨(q.x - self.p1.x) / self.dx, ?_, ?_⟩
      · field_simp
      · field_simp
        linear_combination -hc
    · refine ⟨(q.y - self.p1.y) / self.dy, ?_, ?_⟩
      · field_simp
        linear_combination hc
      · field_simp

theorem Line.nume_b_eq_cross (self other : Line K) :
    self.nume_b other = cross other.p1 self.p1 self.dx self.dy := by
  unfold Line.nume_b cross
  ring

theorem Line.cross_p2 (self other : Line K) :
    cross other.p2 self.p1 self.dx self.dy = self.nume_b other - self.denom other := by
  unfold Line.nume_b Line.denom cross Line.dx Line.dy
  ring

/-- For parallel directions and a non-degenerate receiver, `nume_b = 0` forces
`nume_a = 0`. -/
theorem Line.nume_a_eq_zero (self other : Line K) (h : self.dx ≠ 0 ∨ self.dy ≠ 0)
    (hd : self.denom other = 0) (hb : self.nume_b other = 0) : self.nume_a other = 0 := by
  apply eq_zero_of_mul_dir _ _ _ h
  · have e : self.nume_a other * self.dx
        = self.nume_b other * other.dx - (self.p1.x - other.p1.x) * self.denom other := by
      unfold Line.nume_a Line.nume_b Line.denom
      ring
    rw [e, hd, hb]
    ring
  · have e : self.nume_a other * self.dy
        = self.nume_b other * other.dy - (self.p1.y - other.p1.y) * self.denom other := by
      unfold Line.nume_a Line.nume_b Line.denom
      ring
    rw [e, hd, hb]
    ring

theorem Line.intersection_eq_coincident_iff (self other : Line K)
    (result : Option (Point K)) :
    (Line.intersection self other result).1 = Intersection.COINCIDENT ↔
      self.denom other = 0 ∧ self.nume_a other = 0 ∧ self.nume_b other = 0 := by
  rw [Line.intersection_fst]
  by_cases h : self.denom other = 0
  · by_cases h2 : self.nume_a other = 0 ∧ self.nume_b other = 0
    · simp [h, h2]
    · rw [if_pos h, if_neg h2]
      constructor
      · intro hc
        cases hc
      · intro hc
        exact absurd hc.2 h2
  · simp [h]

theorem Line.intersection_eq_parallel_iff (self other : Line K)
    (result : Option (Point K)) :
    (Line.intersection self other result).1 = Intersection.PARALLEL ↔
      self.denom other = 0 ∧ ¬ (self.nume_a other = 0 ∧ self.nume_b other = 0) := by
  rw [Line.intersection_fst]
  by_cases h : self.denom other = 0
  · by_cases h2 : self.nume_a other = 0 ∧ self.nume_b other = 0
    · simp [h, h2]
    · simp [h, h2]
  · simp [h]

theorem Line.intersection_eq_intersection_iff (self other : Line K)
    (result : Option (Point K)) :
    (Line.intersection self other result).1 = Intersection.INTERESECTION ↔
      self.denom other ≠ 0 := by
  rw [Line.intersection_fst]
  by_cases h : self.denom other = 0
  · by_cases h2 : self.nume_a other = 0 ∧ self.nume_b other = 0
    · simp [h, h2]
    · simp [h, h2]
  · simp [h]

/-- Two non-degenerate lines that are classified as coincident have the same
points. -/
theorem Line.contains_congr (self other : Line K) (h1 : self.dx ≠ 0 ∨ self.dy ≠ 0)
    (h2 : other.dx ≠ 0 ∨ other.dy ≠ 0) (hd : self.denom other = 0)
    (ha : self.nume_a other = 0) (q : Point K) :
    self.Contains q ↔ other.Contains q := by
  rw [Line.contains_iff_cross self q h1, Line.contains_iff_cross other q h2]
  have e1 : cross q other.p1 other.dx other.dy * self.dx
      = cross q self.p1 self.dx self.dy * other.dx
        + (q.x - self.p1.x) * self.denom other - self.nume_a other * self.dx := by
    unfold cross Line.denom Line.nume_a
    ring
  have e2 : cross q other.p1 other.dx other.dy * self.dy
      = cross q self.p1 self.dx self.dy * other.dy
        + (q.y - self.p1.y) * self.denom other - self.nume_a other * self.dy := by
    unfold cross Line.denom Line.nume_a
    ring
  rw [hd, ha] at e1 e2
  constructor
  · intro hc
    rw [hc] at e1 e2
    exact eq_zero_of_mul_dir _ _ _ h1 (by rw [e1]; ring) (by rw [e2]; ring)
  · intro hc
    rw [hc] at e1 e2
    refine eq_zero_of_mul_dir _ _ _ h2 ?_ ?_
    · linear_combination -e1
    · linear_combination -e2

/-- C4, as amended: over exact reals (no rounding, underflow or overflow), for
two non-degenerate lines (`p1 ≠ p2` in each), `Line.intersection` returns
`COINCIDENT` exactly when `other.p1` and `other.p2` both lie on the infinite
line through `p1` and `p2` (equivalently, when the two lines have the same
points), and returns `PARALLEL` exactly when the cross product of the two
directions is zero and `other.p1` does not lie on this line. -/
theorem Line.intersection_agrees_with_geometry (self other : Line K)
    (result : Option (Point K)) (h1 : self.p1 ≠ self.p2) (h2 : other.p1 ≠ other.p2) :
    ((Line.intersection self other result).1 = Intersection.COINCIDENT ↔
      self.Contains other.p1 ∧ self.Contains other.p2) ∧
    ((Line.intersection self other result).1 = Intersection.COINCIDENT ↔
      ∀ q, self.Contains q ↔ other.Contains q) ∧
    ((Line.intersection self other result).1 = Intersection.PARALLEL ↔
      self.dx * other.dy - self.dy * other.dx = 0 ∧ ¬ self.Contains other.p1) := by
  have d1 := Line.dir_ne_zero self h1
  have d2 := Line.dir_ne_zero other h2
  have hden : self.dx * other.dy - self.dy * other.dx = self.denom other := by
    unfold Line.denom
    ring
  have hco : (Line.intersection self other result).1 = Intersection.COINCIDENT ↔
      self.Contains other.p1 ∧ self.Contains other.p2 := by
    rw [Line.intersection_eq_coincident_iff, Line.contains_iff_cross self _ d1,
      Line.contains_iff_cross self _ d1, ← Line.nume_b_eq_cross, Line.cross_p2]
    constructor
    · rintro ⟨hd, -, hb⟩
      rw [hb, hd]
      exact ⟨rfl, sub_zero 0⟩
    · rintro ⟨hb, hd⟩
      rw [hb, zero_sub, neg_eq_zero] at hd
      exact ⟨hd, Line.nume_a_eq_zero self other d1 hd hb, hb⟩
  refine ⟨hco, ?_, ?_⟩
  · constructor
    · intro hc
      have h := (Line.intersection_eq_coincident_iff self other result).1 hc
      exact Line.contains_congr self other d1 d2 h.1 h.2.1
    · intro hq
      refine hco.2 ⟨(hq _).2 ⟨0, ?_, ?_⟩, (hq _).2 ⟨1, ?_, ?_⟩⟩
      · ring
      · ring
      · unfold Line.dx
        ring
      · unfold Line.dy
        ring
  · rw [Line.intersection_eq_parallel_iff, hden, Line.contains_iff_cross self _ d1,
      ← Line.nume_b_eq_cross]
    constructor
    · rintro ⟨hd, hn⟩
      exact ⟨hd, fun hb => hn ⟨Line.nume_a_eq_zero self other d1 hd hb, hb⟩⟩
    · rintro ⟨hd, hb⟩
      exact ⟨hd, fun hn => hb hn.2⟩

/-- Witness of C4: the lines through (0,0),(1,1) and through (2,2),(3,3) are
classified as coincident, so (2,2) and (3,3) lie on the first one. -/
theorem Line.intersection_agrees_with_geometry_witness :
    (Line.ofCoords (0 : ℚ) 0 1 1).p1 ≠ (Line.ofCoords (0 : ℚ) 0 1 1).p2 ∧
    (Line.ofCoords (2 : ℚ) 2 3 3).p1 ≠ (Line.ofCoords (2 : ℚ) 2 3 3).p2 ∧
    (Line.ofCoords (0 : ℚ) 0 1 1).Contains (Line.ofCoords (2 : ℚ) 2 3 3).p1 ∧
    (Line.ofCoords (0 : ℚ) 0 1 1).Contains (Line.ofCoords (2 : ℚ) 2 3 3).p2 := by
  have h1 : (Line.ofCoords (0 : ℚ) 0 1 1).p1 ≠ (Line.ofCoords (0 : ℚ) 0 1 1).p2 :=
    (Point.ne_iff _ _).2 (Or.inl (by norm_num [Line.ofCoords]))
  have h2 : (Line.ofCoords (2 : ℚ) 2 3 3).p1 ≠ (Line.ofCoords (2 : ℚ) 2 3 3).p2 :=
    (Point.ne_iff _ _).2 (Or.inl (by norm_num [Line.ofCoords]))
  refine ⟨h1, h2, ?_⟩
  exact (Line.intersection_agrees_with_geometry (Line.ofCoords (0 : ℚ) 0 1 1)
    (Line.ofCoords (2 : ℚ) 2 3 3) none h1 h2).1.1
    (by norm_num [Line.intersection, Line.ofCoords, Line.denom, Line.nume_a, Line.nume_b,
      Line.dx, Line.dy])

/-- C9: when `Line.intersection` returns `PARALLEL` or `COINCIDENT`, nothing is
written: the contents of `result` after the call are its contents before the
call.  (The two lines are `const` in the source; they are values here.) -/
theorem Line.intersection_result_untouched (self other : Line K)
    (result : Option (Point K))
    (h : (Line.intersection self other result).1 = Intersection.PARALLEL ∨
      (Line.intersection self other result).1 = Intersection.COINCIDENT) :
    (Line.intersection self other result).2 = result := by
  apply Line.intersection_snd_of_denom_eq_zero
  rcases h with h | h
  · exact ((Line.intersection_eq_parallel_iff self other result).1 h).1
  · exact ((Line.intersection_eq_coincident_iff self other result).1 h).1

/-- Witness of C9: the parallel lines through (0,0),(1,1) and through (0,1),(1,2)
leave the point (7,7) of the caller in place. -/
theorem Line.intersection_result_untouched_witness :
    (Line.intersection (Line.ofCoords (0 : ℚ) 0 1 1) (Line.ofCoords 0 1 1 2)
      (some ⟨7, 7⟩)).1 = Intersection.PARALLEL ∧
    (Line.intersection (Line.ofCoords (0 : ℚ) 0 1 1) (Line.ofCoords 0 1 1 2)
      (some ⟨7, 7⟩)).2 = some ⟨7, 7⟩ := by
  have h : (Line.intersection (Line.ofCoords (0 : ℚ) 0 1 1) (Line.ofCoords 0 1 1 2)
      (some ⟨7, 7⟩)).1 = Intersection.PARALLEL := by
    norm_num [Line.intersection, Line.ofCoords, Line.denom, Line.nume_a, Line.nume_b,
      Line.dx, Line.dy]
  exact ⟨h, Line.intersection_result_untouched _ _ _ (Or.inl h)⟩

/-- C10: `Line.intersection` never returns `NO_INTERESECTION`; its result is
`PARALLEL`, `COINCIDENT` or `INTERESECTION`, and it is `INTERESECTION` as soon as
`denom ≠ 0`, whatever the values of `ua = numA/denom` and `ub = numB/denom`. -/
theorem Line.intersection_never_no_intersection (self other : Line K)
    (result : Option (Point K)) :
    (Line.intersection self other result).1 ≠ Intersection.NO_INTERESECTION ∧
    ((Line.intersection self other result).1 = Intersection.PARALLEL ∨
      (Line.intersection self other result).1 = Intersection.COINCIDENT ∨
      (Line.intersection self other result).1 = Intersection.INTERESECTION) ∧
    (other.dy * self.dx - other.dx * self.dy ≠ 0 →
      (Line.intersection self other result).1 = Intersection.INTERESECTION) := by
  have h3 : (Line.intersection self other result).1 = Intersection.PARALLEL ∨
      (Line.intersection self other result).1 = Intersection.COINCIDENT ∨
      (Line.intersection self other result).1 = Intersection.INTERESECTION := by
    rw [Line.intersection_fst]
    by_cases h : self.denom other = 0
    · by_cases h2 : self.nume_a other = 0 ∧ self.nume_b other = 0
      · rw [if_pos h, if_pos h2]
        exact Or.inr (Or.inl rfl)
      · rw [if_pos h, if_neg h2]
        exact Or.inl rfl
    · rw [if_neg h]
      exact Or.inr (Or.inr rfl)
  refine ⟨?_, h3, fun hd => ?_⟩
  · rcases h3 with h | h | h <;> rw [h] <;> decide
  · exact (Line.intersection_eq_intersection_iff self other result).2 hd

/-- Witness of C10: the line through (0,0),(1,0) and the line through (2,-1),(2,1)
have `denom = 2`, `ua = 2` (outside `[0,1]`) and `ub = 1/2`; the result is
`INTERESECTION`, at the point (2,0) beyond the end point `p2` of the first
line. -/
theorem Line.intersection_never_no_intersection_witness :
    (Line.ofCoords (0 : ℚ) 0 1 0).nume_a (Line.ofCoords 2 (-1) 2 1)
      / (Line.ofCoords (0 : ℚ) 0 1 0).denom (Line.ofCoords 2 (-1) 2 1) = 2 ∧
    (Line.ofCoords (0 : ℚ) 0 1 0).nume_b (Line.ofCoords 2 (-1) 2 1)
      / (Line.ofCoords (0 : ℚ) 0 1 0).denom (Line.ofCoords 2 (-1) 2 1) = 1 / 2 ∧
    (Line.intersection (Line.ofCoords (0 : ℚ) 0 1 0) (Line.ofCoords 2 (-1) 2 1)
      (some ⟨7, 7⟩)).1 = Intersection.INTERESECTION ∧
    (Line.intersection (Line.ofCoords (0 : ℚ) 0 1 0) (Line.ofCoords 2 (-1) 2 1)
      (some ⟨7, 7⟩)).2 = some ⟨2, 0⟩ := by
  refine ⟨?_, ?_, ?_, ?_⟩
  · norm_num [Line.ofCoords, Line.denom, Line.nume_a, Line.dx, Line.dy]
  · norm_num [Line.ofCoords, Line.denom, Line.nume_b, Line.dx, Line.dy]
  · exact (Line.intersection_never_no_intersection (Line.ofCoords (0 : ℚ) 0 1 0)
      (Line.ofCoords 2 (-1) 2 1) (some ⟨7, 7⟩)).2.2
      (by norm_num [Line.ofCoords, Line.dx, Line.dy])
  · norm_num [Line.intersection, Line.ofCoords, Line.denom, Line.nume_a, Line.nume_b,
      Line.dx, Line.dy]

/-! Theorems about `Circle.intersection`. -/

/-- The returned `bool` of `Circle.intersection` is decided by the three guards
alone; the output pointers play no part in it. -/
theorem Circle.intersection_bool_eq (hypot : K → K → K) (self other : Circle K)
    (p1 p2 : Option (Point K)) :
    (Circle.intersection hypot self other p1 p2).1 =
      if hypot (other.center.x - self.center.x) (other.center.y - self.center.y)
          > self.r + other.r then false
      else if hypot (other.center.x - self.center.x) (other.center.y - self.center.y)
          < |self.r - other.r| then false
      else if self.r = other.r ∧ other.center.x - self.center.x = 0
          ∧ other.center.y - self.center.y = 0 then false
      else true := by
  unfold Circle.intersection
  simp only []
  split_ifs <;> rfl

/-- C5: when the distance `d = hypot(other.center.x - center.x,
other.center.y - center.y)` of the centers is greater than `r + other.r`,
`Circle.intersection` returns `false`. -/
theorem Circle.intersection_false_of_far (hypot : K → K → K) (self other : Circle K)
    (p1 p2 : Option (Point K))
    (h : hypot (other.center.x - self.center.x) (other.center.y - self.center.y)
      > self.r + other.r) :
    (Circle.intersection hypot self other p1 p2).1 = false := by
  rw [Circle.intersection_bool_eq, if_pos h]

/-- Witness of C5: over the reals, centers (0,0) and (10,0) with radii 1 and 1. -/
theorem Circle.intersection_false_of_far_witness :
    Real.sqrt (((10 : ℝ) - 0) * (10 - 0) + (0 - 0) * (0 - 0)) > 1 + 1 ∧
    (Circle.intersection (fun x y : ℝ => Real.sqrt (x * x + y * y))
      (Circle.ofCoords 0 0 1) (Circle.ofCoords 10 0 1) none none).1 = false := by
  have h : Real.sqrt (((10 : ℝ) - 0) * (10 - 0) + (0 - 0) * (0 - 0)) > 1 + 1 := by
    apply Real.lt_sqrt_of_sq_lt
    norm_num
  exact ⟨h, Circle.intersection_false_of_far (fun x y : ℝ => Real.sqrt (x * x + y * y))
    (Circle.ofCoords 0 0 1) (Circle.ofCoords 10 0 1) none none h⟩

/-- C6: when the distance `d` of the centers is less than `|r - other.r|`,
`Circle.intersection` returns `false`. -/
theorem Circle.intersection_false_of_inside (hypot : K → K → K) (self other : Circle K)
    (p1 p2 : Option (Point K))
    (h : hypot (other.center.x - self.center.x) (other.center.y - self.center.y)
      < |self.r - other.r|) :
    (Circle.intersection hypot self other p1 p2).1 = false := by
  rw [Circle.intersection_bool_eq, if_pos h]
  split_ifs <;> rfl

/-- Witness of C6: over the reals, `Circle(0,0,5)` and `Circle(1,0,1)`, where
`d = 1 < 4`. -/
theorem Circle.intersection_false_of_inside_witness :
    Real.sqrt (((1 : ℝ) - 0) * (1 - 0) + (0 - 0) * (0 - 0)) < |(5 : ℝ) - 1| ∧
    (Circle.intersection (fun x y : ℝ => Real.sqrt (x * x + y * y))
      (Circle.ofCoords 0 0 5) (Circle.ofCoords 1 0 1) none none).1 = false := by
  have h1 : Real.sqrt (((1 : ℝ) - 0) * (1 - 0) + (0 - 0) * (0 - 0)) = 1 := by
    rw [show ((1 : ℝ) - 0) * (1 - 0) + (0 - 0) * (0 - 0) = 1 by norm_num]
    exact Real.sqrt_one
  have h2 : |(5 : ℝ) - 1| = 4 := by
    rw [show (5 : ℝ) - 1 = 4 by norm_num]
    exact abs_of_pos (by norm_num)
  have h : Real.sqrt (((1 : ℝ) - 0) * (1 - 0) + (0 - 0) * (0 - 0)) < |(5 : ℝ) - 1| := by
    rw [h1, h2]
    norm_num
  exact ⟨h, Circle.intersection_false_of_inside
    (fun x y : ℝ => Real.sqrt (x * x + y * y))
    (Circle.ofCoords 0 0 5) (Circle.ofCoords 1 0 1) none none h⟩

/-- C7: a circle against an identical circle (same center, same radius, of any
sign) returns `false`, with or without output pointers and for every `hypot`. -/
theorem Circle.intersection_identical (hypot : K → K → K) (c : Circle K)
    (p1 p2 : Option (Point K)) :
    (Circle.intersection hypot c c p1 p2).1 = false ∧
    (Circle.intersection hypot c (Circle.ofCoords c.center.x c.center.y c.r) p1 p2).1
      = false := by
  have h : (Circle.intersection hypot c c p1 p2).1 = false := by
    rw [Circle.intersection_bool_eq]
    have h3 : c.r = c.r ∧ c.center.x - c.center.x = 0 ∧ c.center.y - c.center.y = 0 :=
      ⟨rfl, sub_self _, sub_self _⟩
    rw [if_pos h3]
    split_ifs <;> rfl
  exact ⟨h, h⟩

/-- C8: `a.intersects(b)` is the `bool` returned by `a.intersection(b, p1, p2)`,
for every choice of the output pointers (null or not). -/
theorem Circle.intersects_iff_intersection (hypot : K → K → K) (a b : Circle K)
    (p1 p2 : Option (Point K)) :
    (Circle.intersects hypot a b = true ↔
      (Circle.intersection hypot a b p1 p2).1 = true) ∧
    (∀ q1 q2 : Option (Point K), (Circle.intersection hypot a b q1 q2).1
      = (Circle.intersection hypot a b p1 p2).1) := by
  have h : ∀ q1 q2 : Option (Point K), (Circle.intersection hypot a b q1 q2).1
      = (Circle.intersection hypot a b p1 p2).1 := by
    intro q1 q2
    rw [Circle.intersection_bool_eq, Circle.intersection_bool_eq]
  refine ⟨?_, h⟩
  unfold Circle.intersects
  rw [h none none]

/-- C2 fails on the code: over the reals, `Circle(0,0,5)` against `Circle(8,0,5)`
returns `true` and writes the points `(4, √41)` and `(4, -√41)`.  Their squared
distance to each center is 57, not 25, so neither point is at distance 5 from
either center.  (The points on both circles are `(4, 3)` and `(4, -3)`: the
source computes `h = hypot(r, a)` where its comment states `a^2+h^2=this.r^2`.) -/
theorem Circle.intersection_points_off_circles :
    Circle.intersection (fun x y : ℝ => Real.sqrt (x * x + y * y))
        (Circle.ofCoords 0 0 5) (Circle.ofCoords 8 0 5) (some ⟨0, 0⟩) (some ⟨0, 0⟩)
      = (true, some ⟨4, Real.sqrt 41⟩, some ⟨4, -Real.sqrt 41⟩) ∧
    Point.distanceSq (⟨4, Real.sqrt 41⟩ : Point ℝ) ⟨0, 0⟩ = 57 ∧
    Point.distanceSq (⟨4, Real.sqrt 41⟩ : Point ℝ) ⟨8, 0⟩ = 57 ∧
    Point.distanceSq (⟨4, -Real.sqrt 41⟩ : Point ℝ) ⟨0, 0⟩ = 57 ∧
    Point.distanceSq (⟨4, -Real.sqrt 41⟩ : Point ℝ) ⟨8, 0⟩ = 57 ∧
    Point.distance (fun x y : ℝ => Real.sqrt (x * x + y * y))
      (⟨4, Real.sqrt 41⟩ : Point ℝ) ⟨0, 0⟩ ≠ 5 ∧
    Point.distance (fun x y : ℝ => Real.sqrt (x * x + y * y))
      (⟨4, Real.sqrt 41⟩ : Point ℝ) ⟨8, 0⟩ ≠ 5 ∧
    Point.distance (fun x y : ℝ => Real.sqrt (x * x + y * y))
      (⟨4, -Real.sqrt 41⟩ : Point ℝ) ⟨0, 0⟩ ≠ 5 ∧
    Point.distance (fun x y : ℝ => Real.sqrt (x * x + y * y))
      (⟨4, -Real.sqrt 41⟩ : Point ℝ) ⟨8, 0⟩ ≠ 5 := by
  have h41 : Real.sqrt 41 * Real.sqrt 41 = 41 := Real.mul_self_sqrt (by norm_num)
  have h8 : Real.sqrt (((8 : ℝ) - 0) * (8 - 0) + (0 - 0) * (0 - 0)) = 8 := by
    rw [show ((8 : ℝ) - 0) * (8 - 0) + (0 - 0) * (0 - 0) = 8 * 8 by norm_num]
    exact Real.sqrt_mul_self (by norm_num)
  have hh : Real.sqrt ((5 : ℝ) * 5 + (5 * 5 - 5 * 5 + 8 * 8) / (2 * 8)
      * ((5 * 5 - 5 * 5 + 8 * 8) / (2 * 8))) = Real.sqrt 41 := by
    congr 1
    norm_num
  have h57 : ∀ u v : ℝ, u * u + v * v = 57 → Real.sqrt (u * u + v * v) ≠ 5 := by
    intro u v e h
    have h2 := Real.mul_self_sqrt (show (0 : ℝ) ≤ u * u + v * v by rw [e]; norm_num)
    rw [h, e] at h2
    norm_num at h2
  refine ⟨?_, ?_, ?_, ?_, ?_, ?_, ?_, ?_, ?_⟩
  · unfold Circle.intersection
    simp only [Circle.ofCoords]
    rw [h8, hh]
    have g1 : ¬ ((8 : ℝ) > 5 + 5) := by norm_num
    have g2 : ¬ ((8 : ℝ) < |(5 : ℝ) - 5|) := by
      rw [sub_self, abs_zero]
      norm_num
    have g3 : ¬ (True ∧ (8 : ℝ) - 0 = 0 ∧ (0 : ℝ) - 0 = 0) := by
      rintro ⟨-, h, -⟩
      norm_num at h
    rw [if_neg g1, if_neg g2, if_neg g3]
    refine Prod.ext rfl (Prod.ext ?_ ?_)
    · simp only [Option.some.injEq, Point.mk.injEq]
      constructor
      · norm_num
      · field_simp
    · simp only [Option.some.injEq, Point.mk.injEq]
      constructor
      · norm_num
      · field_simp
  · simp only [Point.distanceSq]
    nlinarith [h41]
  · simp only [Point.distanceSq]
    nlinarith [h41]
  · simp only [Point.distanceSq]
    nlinarith [h41]
  · simp only [Point.distanceSq]
    nlinarith [h41]
  · exact h57 (4 - 0) (Real.sqrt 41 - 0) (by nlinarith [h41])
  · exact h57 (4 - 8) (Real.sqrt 41 - 0) (by nlinarith [h41])
  · exact h57 (4 - 0) (-Real.sqrt 41 - 0) (by nlinarith [h41])
  · exact h57 (4 - 8) (-Real.sqrt 41 - 0) (by nlinarith [h41])

/-! Theorems about `hypot` and `Point`. -/

/-- The real `hypot` satisfies the contract. -/
theorem isHypot_real : IsHypot (fun x y : ℝ => Real.sqrt (x * x + y * y)) := by
  intro x y
  exact ⟨Real.sqrt_nonneg _,
    Real.mul_self_sqrt (add_nonneg (mul_self_nonneg x) (mul_self_nonneg y))⟩

/-- The contract determines `hypot` over the reals. -/
theorem isHypot_real_unique (hypot : ℝ → ℝ → ℝ) (hh : IsHypot hypot) (x y : ℝ) :
    hypot x y = Real.sqrt (x * x + y * y) := by
  rw [← (hh x y).2]
  exact (Real.sqrt_mul_self (hh x y).1).symm

/-- A `hypot` takes the same value on two pairs with the same sum of squares. -/
theorem IsHypot.congr_of_sq {hypot : K → K → K} (hh : IsHypot hypot) {x y u v : K}
    (h : x * x + y * y = u * u + v * v) : hypot x y = hypot u v := by
  apply (mul_self_inj (hh x y).1 (hh u v).1).1
  rw [(hh x y).2, (hh u v).2, h]

/-- A `hypot` vanishes only at the origin. -/
theorem IsHypot.eq_zero {hypot : K → K → K} (hh : IsHypot hypot) {x y : K}
    (h : hypot x y = 0) : x = 0 ∧ y = 0 := by
  have e := (hh x y).2
  rw [h, mul_zero] at e
  exact mul_self_add_mul_self_eq_zero.1 e.symm

/-- C11, as amended: over exact reals (no rounding), translating a point by
`(dx1,dy1)` and then by `(dx2,dy2)` gives the point obtained by translating
once by `(dx1+dx2, dy1+dy2)`; `translate(dx,dy)` adds `dx` to `x` and `dy` to
`y` and returns the translated point. -/
theorem Point.translate_translate (P : Point K) (dx1 dy1 dx2 dy2 : K) :
    (P.translate dx1 dy1).translate dx2 dy2 = P.translate (dx1 + dx2) (dy1 + dy2) ∧
    (P.translate dx1 dy1).x = P.x + dx1 ∧ (P.translate dx1 dy1).y = P.y + dy1 := by
  refine ⟨?_, rfl, rfl⟩
  unfold Point.translate
  simp only [Point.mk.injEq]
  exact ⟨add_assoc _ _ _, add_assoc _ _ _⟩

/-- C12: `A.distance(B)` equals `B.distance(A)`, and `A.distance(B)` is the
non-negative number whose square is `(x-other.x)^2 + (y-other.y)^2`. -/
theorem Point.distance_comm (hypot : K → K → K) (hh : IsHypot hypot) (A B : Point K) :
    Point.distance hypot A B = Point.distance hypot B A ∧
    0 ≤ Point.distance hypot A B ∧
    Point.distance hypot A B ^ 2 = (A.x - B.x) ^ 2 + (A.y - B.y) ^ 2 := by
  unfold Point.distance
  refine ⟨hh.congr_of_sq (by ring), (hh _ _).1, ?_⟩
  rw [sq, (hh _ _).2]
  ring

/-- Witness of C12: over the reals, the points (0,0) and (3,4). -/
theorem Point.distance_comm_witness :
    IsHypot (fun x y : ℝ => Real.sqrt (x * x + y * y)) ∧
    Point.distance (fun x y : ℝ => Real.sqrt (x * x + y * y)) ⟨0, 0⟩ ⟨3, 4⟩
      = Point.distance (fun x y : ℝ => Real.sqrt (x * x + y * y)) ⟨3, 4⟩ ⟨0, 0⟩ :=
  ⟨isHypot_real, (Point.distance_comm _ isHypot_real ⟨0, 0⟩ ⟨3, 4⟩).1⟩

/-- C13, as amended: over the reals, with `hypot(x, y)` the square root of
`x*x + y*y`, `A.distanceSq(B)` equals `(x-other.x)^2 + (y-other.y)^2`, and it
equals the square of `A.distance(B)`. -/
theorem Point.distanceSq_real (A B : Point ℝ) :
    Point.distanceSq A B = (A.x - B.x) ^ 2 + (A.y - B.y) ^ 2 ∧
    Point.distanceSq A B
      = Point.distance (fun x y : ℝ => Real.sqrt (x * x + y * y)) A B ^ 2 := by
  refine ⟨rfl, ?_⟩
  unfold Point.distanceSq Point.distance
  rw [Real.sq_sqrt (add_nonneg (mul_self_nonneg _) (mul_self_nonneg _))]
  ring

/-! Symmetry, degenerate lines and translation for `Line.intersection`. -/

theorem Line.denom_swap (A B : Line K) : B.denom A = -(A.denom B) := by
  unfold Line.denom
  ring

theorem Line.nume_a_swap (A B : Line K) : B.nume_a A = -(A.nume_b B) := by
  unfold Line.nume_a Line.nume_b
  ring

theorem Line.nume_b_swap (A B : Line K) : B.nume_b A = -(A.nume_a B) := by
  unfold Line.nume_a Line.nume_b
  ring

/-- C17: `A.intersection(B)` and `B.intersection(A)` return the same
classification, whatever the result pointers, and when that classification is
`INTERESECTION` the two calls write the same point. -/
theorem Line.intersection_swap (A B : Line K) (qa qb : Point K) :
    (∀ ra rb : Option (Point K),
      (Line.intersection A B ra).1 = (Line.intersection B A rb).1) ∧
    ((Line.intersection A B (some qa)).1 = Intersection.INTERESECTION →
      (Line.intersection A B (some qa)).2 = (Line.intersection B A (some qb)).2) := by
  constructor
  · intro ra rb
    rw [Line.intersection_fst, Line.intersection_fst, Line.denom_swap A B,
      Line.nume_a_swap A B, Line.nume_b_swap A B]
    simp only [neg_eq_zero]
    by_cases hd : A.denom B = 0
    · rw [if_pos hd, if_pos hd]
      by_cases h : A.nume_a B = 0 ∧ A.nume_b B = 0
      · rw [if_pos h, if_pos h.symm]
      · rw [if_neg h, if_neg (fun h2 => h h2.symm)]
    · rw [if_neg hd, if_neg hd]
  · intro hi
    have hd : A.denom B ≠ 0 := (Line.intersection_eq_intersection_iff A B _).1 hi
    have hd2 : B.denom A ≠ 0 := by
      rw [Line.denom_swap]
      exact neg_ne_zero.2 hd
    rw [Line.intersection_of_denom_ne_zero A B qa hd,
      Line.intersection_of_denom_ne_zero B A qb hd2]
    have hu : B.nume_a A / B.denom A = A.nume_b B / A.denom B := by
      rw [Line.nume_a_swap, Line.denom_swap, neg_div_neg_eq]
    have ex : (A.p1.x - B.p1.x) * A.denom B + A.nume_a B * A.dx - A.nume_b B * B.dx = 0 := by
      unfold Line.denom Line.nume_a Line.nume_b
      ring
    have ey : (A.p1.y - B.p1.y) * A.denom B + A.nume_a B * A.dy - A.nume_b B * B.dy = 0 := by
      unfold Line.denom Line.nume_a Line.nume_b
      ring
    simp only [Option.some.injEq, Point.mk.injEq]
    rw [hu]
    constructor
    · field_simp
      linear_combination ex
    · field_simp
      linear_combination ey

/-- Witness of C17: the lines through (0,0),(1,1) and through (0,2),(2,0) meet
at (1,1), in either order of the call. -/
theorem Line.intersection_swap_witness :
    (Line.intersection (Line.ofCoords (0 : ℚ) 0 1 1) (Line.ofCoords 0 2 2 0)
      (some ⟨7, 7⟩)).1 = Intersection.INTERESECTION ∧
    (Line.intersection (Line.ofCoords (0 : ℚ) 2 2 0) (Line.ofCoords 0 0 1 1)
      (some ⟨9, 9⟩)).1 = Intersection.INTERESECTION ∧
    (Line.intersection (Line.ofCoords (0 : ℚ) 0 1 1) (Line.ofCoords 0 2 2 0)
      (some ⟨7, 7⟩)).2 = some ⟨1, 1⟩ ∧
    (Line.intersection (Line.ofCoords (0 : ℚ) 2 2 0) (Line.ofCoords 0 0 1 1)
      (some ⟨9, 9⟩)).2 = some ⟨1, 1⟩ := by
  have h1 : (Line.intersection (Line.ofCoords (0 : ℚ) 0 1 1) (Line.ofCoords 0 2 2 0)
      (some ⟨7, 7⟩)).1 = Intersection.INTERESECTION := by
    norm_num [Line.intersection, Line.ofCoords, Line.denom, Line.nume_a, Line.nume_b,
      Line.dx, Line.dy]
  have h2 : (Line.intersection (Line.ofCoords (0 : ℚ) 0 1 1) (Line.ofCoords 0 2 2 0)
      (some ⟨7, 7⟩)).2 = some ⟨1, 1⟩ := by
    norm_num [Line.intersection, Line.ofCoords, Line.denom, Line.nume_a, Line.nume_b,
      Line.dx, Line.dy]
  have h := Line.intersection_swap (Line.ofCoords (0 : ℚ) 0 1 1) (Line.ofCoords 0 2 2 0)
    ⟨7, 7⟩ ⟨9, 9⟩
  refine ⟨h1, ?_, h2, ?_⟩
  · rw [← h.1 (some ⟨7, 7⟩) (some ⟨9, 9⟩)]
    exact h1
  · rw [← h.2 h1]
    exact h2

theorem Line.translate_dx (A : Line K) (tx ty : K) : (A.translate tx ty).dx = A.dx := by
  unfold Line.translate Line.dx Point.translate
  simp only []
  ring

theorem Line.translate_dy (A : Line K) (tx ty : K) : (A.translate tx ty).dy = A.dy := by
  unfold Line.translate Line.dy Point.translate
  simp only []
  ring

theorem Line.denom_translate (A B : Line K) (tx ty : K) :
    (A.translate tx ty).denom (B.translate tx ty) = A.denom B := by
  unfold Line.denom
  rw [Line.translate_dx, Line.translate_dy, Line.translate_dx, Line.translate_dy]

theorem Line.nume_a_translate (A B : Line K) (tx ty : K) :
    (A.translate tx ty).nume_a (B.translate tx ty) = A.nume_a B := by
  unfold Line.nume_a
  rw [Line.translate_dx, Line.translate_dy]
  unfold Line.translate Point.translate
  simp only []
  ring

theorem Line.nume_b_translate (A B : Line K) (tx ty : K) :
    (A.translate tx ty).nume_b (B.translate tx ty) = A.nume_b B := by
  unfold Line.nume_b
  rw [Line.translate_dx, Line.translate_dy]
  unfold Line.translate Point.translate
  simp only []
  ring

/-- C19, as amended: over exact reals (no rounding), `translate(tx,ty)` shifts
both end points of a line by `(tx,ty)` and
leaves `dx()` and `dy()` unchanged; after translating both lines by the same
`(tx,ty)`, `Line.intersection` returns the same classification as before, and
when it is `INTERESECTION` the point written is the old point shifted by
`(tx,ty)`. -/
theorem Line.intersection_translate (A B : Line K) (tx ty : K) (q q2 : Point K) :
    ((A.translate tx ty).p1 = ⟨A.p1.x + tx, A.p1.y + ty⟩ ∧
      (A.translate tx ty).p2 = ⟨A.p2.x + tx, A.p2.y + ty⟩ ∧
      (A.translate tx ty).dx = A.dx ∧ (A.translate tx ty).dy = A.dy) ∧
    (∀ r r2 : Option (Point K),
      (Line.intersection (A.translate tx ty) (B.translate tx ty) r2).1
        = (Line.intersection A B r).1) ∧
    ((Line.intersection A B (some q)).1 = Intersection.INTERESECTION →
      ∃ pt, (Line.intersection A B (some q)).2 = some pt ∧
        (Line.intersection (A.translate tx ty) (B.translate tx ty) (some q2)).2
          = some (pt.translate tx ty)) := by
  refine ⟨⟨rfl, rfl, Line.translate_dx A tx ty, Line.translate_dy A tx ty⟩, ?_, ?_⟩
  · intro r r2
    rw [Line.intersection_fst, Line.intersection_fst, Line.denom_translate,
      Line.nume_a_translate, Line.nume_b_translate]
  · intro hi
    have hd : A.denom B ≠ 0 := (Line.intersection_eq_intersection_iff A B _).1 hi
    have hd2 : (A.translate tx ty).denom (B.translate tx ty) ≠ 0 := by
      rw [Line.denom_translate]
      exact hd
    refine ⟨_, by rw [Line.intersection_of_denom_ne_zero A B q hd], ?_⟩
    rw [Line.intersection_of_denom_ne_zero _ _ q2 hd2, Line.denom_translate,
      Line.nume_a_translate, Line.translate_dx, Line.translate_dy]
    unfold Line.translate Point.translate
    simp only [Option.some.injEq, Point.mk.injEq]
    constructor <;> ring

/-- Witness of C19: the lines through (0,0),(1,1) and through (0,2),(2,0) meet
at (1,1); shifted by (10,20) they meet at (11,21). -/
theorem Line.intersection_translate_witness :
    (Line.intersection (Line.ofCoords (0 : ℚ) 0 1 1) (Line.ofCoords 0 2 2 0)
      (some ⟨7, 7⟩)).1 = Intersection.INTERESECTION ∧
    (Line.intersection (Line.ofCoords (0 : ℚ) 0 1 1) (Line.ofCoords 0 2 2 0)
      (some ⟨7, 7⟩)).2 = some ⟨1, 1⟩ ∧
    (Line.intersection ((Line.ofCoords (0 : ℚ) 0 1 1).translate 10 20)
      ((Line.ofCoords (0 : ℚ) 2 2 0).translate 10 20) (some ⟨9, 9⟩)).2
      = some ⟨11, 21⟩ := by
  have h1 : (Line.intersection (Line.ofCoords (0 : ℚ) 0 1 1) (Line.ofCoords 0 2 2 0)
      (some ⟨7, 7⟩)).1 = Intersection.INTERESECTION := by
    norm_num [Line.intersection, Line.ofCoords, Line.denom, Line.nume_a, Line.nume_b,
      Line.dx, Line.dy]
  have h2 : (Line.intersection (Line.ofCoords (0 : ℚ) 0 1 1) (Line.ofCoords 0 2 2 0)
      (some ⟨7, 7⟩)).2 = some ⟨1, 1⟩ := by
    norm_num [Line.intersection, Line.ofCoords, Line.denom, Line.nume_a, Line.nume_b,
      Line.dx, Line.dy]
  obtain ⟨pt, hpt, hsh⟩ := (Line.intersection_translate (Line.ofCoords (0 : ℚ) 0 1 1)
    (Line.ofCoords 0 2 2 0) 10 20 ⟨7, 7⟩ ⟨9, 9⟩).2.2 h1
  rw [h2] at hpt
  have e : (⟨1, 1⟩ : Point ℚ) = pt := Option.some.inj hpt
  subst e
  refine ⟨h1, h2, ?_⟩
  rw [hsh]
  norm_num [Point.translate]

/-! The points written by `Circle.intersection`. -/

/-- When `Circle.intersection` returns `true`, none of its three guards held. -/
theorem Circle.guards_of_true (hypot : K → K → K) (self other : Circle K)
    (p1 p2 : Option (Point K))
    (h : (Circle.intersection hypot self other p1 p2).1 = true) :
    ¬ (hypot (other.center.x - self.center.x) (other.center.y - self.center.y)
        > self.r + other.r) ∧
    ¬ (hypot (other.center.x - self.center.x) (other.center.y - self.center.y)
        < |self.r - other.r|) ∧
    ¬ (self.r = other.r ∧ other.center.x - self.center.x = 0
        ∧ other.center.y - self.center.y = 0) := by
  rw [Circle.intersection_bool_eq] at h
  refine ⟨fun g => ?_, fun g => ?_, fun g => ?_⟩
  · rw [if_pos g] at h
    cases h
  · rw [if_pos g] at h
    split_ifs at h
  · rw [if_pos g] at h
    split_ifs at h

/-- When none of the three guards holds, `Circle.intersection` returns `true`. -/
theorem Circle.true_of_guards (hypot : K → K → K) (self other : Circle K)
    (p1 p2 : Option (Point K))
    (g1 : ¬ (hypot (other.center.x - self.center.x) (other.center.y - self.center.y)
        > self.r + other.r))
    (g2 : ¬ (hypot (other.center.x - self.center.x) (other.center.y - self.center.y)
        < |self.r - other.r|))
    (g3 : ¬ (self.r = other.r ∧ other.center.x - self.center.x = 0
        ∧ other.center.y - self.center.y = 0)) :
    (Circle.intersection hypot self other p1 p2).1 = true := by
  rw [Circle.intersection_bool_eq, if_neg g1, if_neg g2, if_neg g3]

/-- The two points written when `Circle.intersection` returns `true`, in the
form of the source. -/
theorem Circle.intersection_of_true (hypot : K → K → K) (self other : Circle K)
    (a1 a2 : Point K)
    (h : (Circle.intersection hypot self other (some a1) (some a2)).1 = true) :
    let dx := other.center.x - self.center.x
    let dy := other.center.y - self.center.y
    let d := hypot dx dy
    let a := ((self.r * self.r) - (other.r * other.r) + (d * d)) / (2 * d)
    Circle.intersection hypot self other (some a1) (some a2) =
      (true,
        some ⟨self.center.x + (dx * a / d) + -dy * (hypot self.r a / d),
          self.center.y + (dy * a / d) + dx * (hypot self.r a / d)⟩,
        some ⟨self.center.x + (dx * a / d) - -dy * (hypot self.r a / d),
          self.center.y + (dy * a / d) - dx * (hypot self.r a / d)⟩) := by
  obtain ⟨g1, g2, g3⟩ := Circle.guards_of_true hypot self other _ _ h
  intro dx dy d a
  unfold Circle.intersection
  simp only []
  rw [if_neg g1, if_neg g2, if_neg g3]

/-- When the three guards of `Circle.intersection` all fail, the distance of the
centers is positive. -/
theorem Circle.distance_pos_of_guards {hypot : K → K → K} (hh : IsHypot hypot)
    (self other : Circle K)
    (g2 : ¬ (hypot (other.center.x - self.center.x) (other.center.y - self.center.y)
        < |self.r - other.r|))
    (g3 : ¬ (self.r = other.r ∧ other.center.x - self.center.x = 0
        ∧ other.center.y - self.center.y = 0)) :
    0 < hypot (other.center.x - self.center.x) (other.center.y - self.center.y) := by
  rcases lt_or_eq_of_le (hh (other.center.x - self.center.x)
    (other.center.y - self.center.y)).1 with hpos | h0
  · exact hpos
  · exfalso
    apply g3
    have hz := hh.eq_zero h0.symm
    refine ⟨?_, hz.1, hz.2⟩
    rw [← h0] at g2
    have habs : |self.r - other.r| = 0 :=
      le_antisymm (not_lt.1 g2) (abs_nonneg _)
    exact sub_eq_zero.1 (abs_eq_zero.1 habs)

/-- Over the reals, the centers (0,0) and (6,0) are at distance 6. -/
theorem real_hypot_six :
    Real.sqrt (((6 : ℝ) - 0) * (6 - 0) + (0 - 0) * (0 - 0)) = 6 := by
  rw [show ((6 : ℝ) - 0) * (6 - 0) + (0 - 0) * (0 - 0) = 6 * 6 by norm_num]
  exact Real.sqrt_mul_self (by norm_num)

/-- Over the reals, none of the three guards holds for `Circle(0,0,4)` against
`Circle(6,0,4)`. -/
theorem real_example_guards :
    ¬ (Real.sqrt (((6 : ℝ) - 0) * (6 - 0) + (0 - 0) * (0 - 0)) > 4 + 4) ∧
    ¬ (Real.sqrt (((6 : ℝ) - 0) * (6 - 0) + (0 - 0) * (0 - 0)) < |(4 : ℝ) - 4|) ∧
    ¬ ((4 : ℝ) = 4 ∧ (6 : ℝ) - 0 = 0 ∧ (0 : ℝ) - 0 = 0) := by
  rw [real_hypot_six]
  refine ⟨by norm_num, ?_, ?_⟩
  · rw [sub_self, abs_zero]
    norm_num
  · rintro ⟨-, h, -⟩
    norm_num at h

/-- C16: `Circle.intersection` reaches its divisions exactly when none of the
three guards holds, and then the distance `d` of the centers is strictly
positive, so that neither `2*d` nor `d` is zero; this for all centers and all
radii, of any sign. -/
theorem Circle.intersection_divisor_pos (hypot : K → K → K) (hh : IsHypot hypot)
    (self other : Circle K) (p1 p2 : Option (Point K)) :
    ((Circle.intersection hypot self other p1 p2).1 = true ↔
      ¬ (hypot (other.center.x - self.center.x) (other.center.y - self.center.y)
          > self.r + other.r) ∧
      ¬ (hypot (other.center.x - self.center.x) (other.center.y - self.center.y)
          < |self.r - other.r|) ∧
      ¬ (self.r = other.r ∧ other.center.x - self.center.x = 0
          ∧ other.center.y - self.center.y = 0)) ∧
    (¬ (hypot (other.center.x - self.center.x) (other.center.y - self.center.y)
          > self.r + other.r) →
      ¬ (hypot (other.center.x - self.center.x) (other.center.y - self.center.y)
          < |self.r - other.r|) →
      ¬ (self.r = other.r ∧ other.center.x - self.center.x = 0
          ∧ other.center.y - self.center.y = 0) →
      0 < hypot (other.center.x - self.center.x) (other.center.y - self.center.y) ∧
      2 * hypot (other.center.x - self.center.x) (other.center.y - self.center.y) ≠ 0 ∧
      hypot (other.center.x - self.center.x) (other.center.y - self.center.y) ≠ 0) := by
  constructor
  · constructor
    · exact Circle.guards_of_true hypot self other p1 p2
    · rintro ⟨g1, g2, g3⟩
      exact Circle.true_of_guards hypot self other p1 p2 g1 g2 g3
  · intro _ g2 g3
    have hpos := Circle.distance_pos_of_guards hh self other g2 g3
    exact ⟨hpos, ne_of_gt (mul_pos two_pos hpos), ne_of_gt hpos⟩

/-- Witness of C16: over the reals, `Circle(0,0,4)` against `Circle(6,0,4)`
passes the three guards, and the distance of the centers is positive. -/
theorem Circle.intersection_divisor_pos_witness :
    IsHypot (fun x y : ℝ => Real.sqrt (x * x + y * y)) ∧
    (Circle.intersection (fun x y : ℝ => Real.sqrt (x * x + y * y))
      (Circle.ofCoords 0 0 4) (Circle.ofCoords 6 0 4) none none).1 = true ∧
    0 < Real.sqrt (((6 : ℝ) - 0) * (6 - 0) + (0 - 0) * (0 - 0)) := by
  have h := Circle.intersection_divisor_pos (fun x y : ℝ => Real.sqrt (x * x + y * y))
    isHypot_real (Circle.ofCoords 0 0 4) (Circle.ofCoords 6 0 4) none none
  exact ⟨isHypot_real, h.1.2 real_example_guards,
    (h.2 real_example_guards.1 real_example_guards.2.1 real_example_guards.2.2).1⟩

/-- C20: `A.intersects(B)` equals `B.intersects(A)`, for all centers and all
radii. -/
theorem Circle.intersects_comm (hypot : K → K → K) (hh : IsHypot hypot)
    (A B : Circle K) :
    Circle.intersects hypot A B = Circle.intersects hypot B A := by
  unfold Circle.intersects
  rw [Circle.intersection_bool_eq, Circle.intersection_bool_eq]
  have hd : hypot (B.center.x - A.center.x) (B.center.y - A.center.y)
      = hypot (A.center.x - B.center.x) (A.center.y - B.center.y) :=
    hh.congr_of_sq (by ring)
  have g3 : (A.r = B.r ∧ B.center.x - A.center.x = 0 ∧ B.center.y - A.center.y = 0) ↔
      (B.r = A.r ∧ A.center.x - B.center.x = 0 ∧ A.center.y - B.center.y = 0) := by
    constructor
    · rintro ⟨h1, h2, h3⟩
      exact ⟨h1.symm, by rw [← neg_sub, h2, neg_zero], by rw [← neg_sub, h3, neg_zero]⟩
    · rintro ⟨h1, h2, h3⟩
      exact ⟨h1.symm, by rw [← neg_sub, h2, neg_zero], by rw [← neg_sub, h3, neg_zero]⟩
  rw [hd, add_comm A.r B.r, abs_sub_comm A.r B.r]
  by_cases h3 : A.r = B.r ∧ B.center.x - A.center.x = 0 ∧ B.center.y - A.center.y = 0
  · rw [if_pos h3, if_pos (g3.1 h3)]
  · rw [if_neg h3, if_neg (fun h => h3 (g3.2 h))]

/-- Witness of C20: over the reals, `Circle(0,0,4)` and `Circle(6,0,4)`
intersect, in either order. -/
theorem Circle.intersects_comm_witness :
    IsHypot (fun x y : ℝ => Real.sqrt (x * x + y * y)) ∧
    Circle.intersects (fun x y : ℝ => Real.sqrt (x * x + y * y))
      (Circle.ofCoords 0 0 4) (Circle.ofCoords 6 0 4) = true ∧
    Circle.intersects (fun x y : ℝ => Real.sqrt (x * x + y * y))
      (Circle.ofCoords 6 0 4) (Circle.ofCoords 0 0 4) = true := by
  have h1 : Circle.intersects (fun x y : ℝ => Real.sqrt (x * x + y * y))
      (Circle.ofCoords 0 0 4) (Circle.ofCoords 6 0 4) = true :=
    Circle.true_of_guards _ (Circle.ofCoords 0 0 4) (Circle.ofCoords 6 0 4) none none
      real_example_guards.1 real_example_guards.2.1 real_example_guards.2.2
  refine ⟨isHypot_real, h1, ?_⟩
  rw [← Circle.intersects_comm _ isHypot_real]
  exact h1

/-- C14: when `Circle.intersection` returns `true`, the two points it writes
are `(x2+rx, y2+ry)` and `(x2-rx, y2-ry)`, with `ddx`, `ddy`, `d`, `a`, `x2`,
`y2`, `h = hypot(r, a)`, `rx` and `ry` as in the claim; `h` is the non-negative
number whose square is `r^2 + a^2`. -/
theorem Circle.intersection_points_formula (hypot : K → K → K) (self other : Circle K)
    (a1 a2 : Point K)
    (ht : (Circle.intersection hypot self other (some a1) (some a2)).1 = true) :
    let ddx := other.center.x - self.center.x
    let ddy := other.center.y - self.center.y
    let d := hypot ddx ddy
    let a := (self.r ^ 2 - other.r ^ 2 + d ^ 2) / (2 * d)
    let x2 := self.center.x + ddx * a / d
    let y2 := self.center.y + ddy * a / d
    let h := hypot self.r a
    let rx := -ddy * (h / d)
    let ry := ddx * (h / d)
    Circle.intersection hypot self other (some a1) (some a2)
      = (true, some ⟨x2 + rx, y2 + ry⟩, some ⟨x2 - rx, y2 - ry⟩) ∧
    (IsHypot hypot → 0 ≤ h ∧ h ^ 2 = self.r ^ 2 + a ^ 2) := by
  intro ddx ddy d a x2 y2 h rx ry
  constructor
  · have e := Circle.intersection_of_true hypot self other a1 a2 ht
    simp only [] at e
    rw [e]
    simp only [x2, y2, rx, ry, h, a, d, ddx, ddy, sq]
  · intro hh
    refine ⟨(hh _ _).1, ?_⟩
    rw [sq h, (hh _ _).2]
    ring

/-- Witness of C14: over the reals, `Circle(0,0,4)` against `Circle(6,0,4)` has
`d = 6`, `a = 3`, `h = 5` and writes (3,5) and (3,-5). -/
theorem Circle.intersection_points_formula_witness :
    (Circle.intersection (fun x y : ℝ => Real.sqrt (x * x + y * y))
      (Circle.ofCoords 0 0 4) (Circle.ofCoords 6 0 4) (some ⟨0, 0⟩) (some ⟨0, 0⟩)).1
      = true ∧
    Circle.intersection (fun x y : ℝ => Real.sqrt (x * x + y * y))
      (Circle.ofCoords 0 0 4) (Circle.ofCoords 6 0 4) (some ⟨0, 0⟩) (some ⟨0, 0⟩)
      = (true, some ⟨3, 5⟩, some ⟨3, -5⟩) := by
  have ht : (Circle.intersection (fun x y : ℝ => Real.sqrt (x * x + y * y))
      (Circle.ofCoords 0 0 4) (Circle.ofCoords 6 0 4) (some ⟨0, 0⟩) (some ⟨0, 0⟩)).1
      = true :=
    Circle.true_of_guards _ (Circle.ofCoords 0 0 4) (Circle.ofCoords 6 0 4) _ _
      real_example_guards.1 real_example_guards.2.1 real_example_guards.2.2
  refine ⟨ht, ?_⟩
  have h := (Circle.intersection_points_formula _ (Circle.ofCoords 0 0 4)
    (Circle.ofCoords 6 0 4) ⟨0, 0⟩ ⟨0, 0⟩ ht).1
  rw [h]
  simp only [Circle.ofCoords]
  rw [real_hypot_six]
  have h5 : Real.sqrt ((4 : ℝ) * 4 + (4 ^ 2 - 4 ^ 2 + 6 ^ 2) / (2 * 6)
      * ((4 ^ 2 - 4 ^ 2 + 6 ^ 2) / (2 * 6))) = 5 := by
    rw [show (4 : ℝ) * 4 + (4 ^ 2 - 4 ^ 2 + 6 ^ 2) / (2 * 6)
      * ((4 ^ 2 - 4 ^ 2 + 6 ^ 2) / (2 * 6)) = 5 * 5 by norm_num]
    exact Real.sqrt_mul_self (by norm_num)
  rw [h5]
  norm_num

/-- Over the reals, `Circle(0,0,4)` against `Circle(6,0,4)` writes (3,5) and
(3,-5). -/
theorem real_example_points :
    Circle.intersection (fun x y : ℝ => Real.sqrt (x * x + y * y))
      (Circle.ofCoords 0 0 4) (Circle.ofCoords 6 0 4) (some ⟨0, 0⟩) (some ⟨0, 0⟩)
      = (true, some ⟨3, 5⟩, some ⟨3, -5⟩) := by
  have ht : (Circle.intersection (fun x y : ℝ => Real.sqrt (x * x + y * y))
      (Circle.ofCoords 0 0 4) (Circle.ofCoords 6 0 4) (some ⟨0, 0⟩) (some ⟨0, 0⟩)).1
      = true :=
    Circle.true_of_guards _ (Circle.ofCoords 0 0 4) (Circle.ofCoords 6 0 4) _ _
      real_example_guards.1 real_example_guards.2.1 real_example_guards.2.2
  have h := Circle.intersection_of_true _ (Circle.ofCoords 0 0 4)
    (Circle.ofCoords 6 0 4) ⟨0, 0⟩ ⟨0, 0⟩ ht
  simp only [] at h
  rw [h]
  simp only [Circle.ofCoords]
  rw [real_hypot_six]
  have h5 : Real.sqrt ((4 : ℝ) * 4 + (4 * 4 - 4 * 4 + 6 * 6) / (2 * 6)
      * ((4 * 4 - 4 * 4 + 6 * 6) / (2 * 6))) = 5 := by
    rw [show (4 : ℝ) * 4 + (4 * 4 - 4 * 4 + 6 * 6) / (2 * 6)
      * ((4 * 4 - 4 * 4 + 6 * 6) / (2 * 6)) = 5 * 5 by norm_num]
    exact Real.sqrt_mul_self (by norm_num)
  rw [h5]
  norm_num

/-- C15, as amended: over exact reals (no rounding, no overflow), when
`Circle.intersection` returns `true` and writes `q1` and `q2`,
the midpoint of `q1` and `q2` is `(x2, y2)`, it lies on the line through the two
centers, and the vector from `q1` to `q2` has dot product zero with the
center-to-center vector `(ddx, ddy)`; the two centers are distinct. -/
theorem Circle.intersection_points_symmetric (hypot : K → K → K) (self other : Circle K)
    (a1 a2 q1 q2 : Point K)
    (h : Circle.intersection hypot self other (some a1) (some a2)
      = (true, some q1, some q2)) :
    let ddx := other.center.x - self.center.x
    let ddy := other.center.y - self.center.y
    let d := hypot ddx ddy
    let a := (self.r ^ 2 - other.r ^ 2 + d ^ 2) / (2 * d)
    (Line.mk q1 q2).midX = self.center.x + ddx * a / d ∧
    (Line.mk q1 q2).midY = self.center.y + ddy * a / d ∧
    Line.Contains ⟨self.center, other.center⟩
      ⟨(Line.mk q1 q2).midX, (Line.mk q1 q2).midY⟩ ∧
    (q2.x - q1.x) * ddx + (q2.y - q1.y) * ddy = 0 ∧
    (IsHypot hypot → self.center ≠ other.center) := by
  intro ddx ddy d a
  have ht : (Circle.intersection hypot self other (some a1) (some a2)).1 = true := by
    rw [h]
  have e := Circle.intersection_of_true hypot self other a1 a2 ht
  simp only [] at e
  rw [h] at e
  have e1 : q1 = _ := Option.some.inj (congrArg (fun t => t.2.1) e)
  have e2 : q2 = _ := Option.some.inj (congrArg (fun t => t.2.2) e)
  have hx : (Line.mk q1 q2).midX = self.center.x + ddx * a / d := by
    rw [e1, e2]
    simp only [Line.midX, a, d, ddx, ddy, sq]
    ring
  have hy : (Line.mk q1 q2).midY = self.center.y + ddy * a / d := by
    rw [e1, e2]
    simp only [Line.midY, a, d, ddx, ddy, sq]
    ring
  refine ⟨hx, hy, ⟨a / d, ?_, ?_⟩, ?_, ?_⟩
  · rw [hx]
    simp only [Line.dx, ddx]
    ring
  · rw [hy]
    simp only [Line.dy, ddy]
    ring
  · rw [e1, e2]
    simp only [ddx, ddy]
    ring
  · intro hh hc
    obtain ⟨-, g2, g3⟩ := Circle.guards_of_true hypot self other _ _ ht
    have hpos := Circle.distance_pos_of_guards hh self other g2 g3
    rw [hc, sub_self, sub_self] at hpos
    have h0 := (hh 0 0).2
    rw [mul_zero, add_zero] at h0
    rw [mul_self_eq_zero.1 h0] at hpos
    exact lt_irrefl _ hpos

/-- Witness of C15: over the reals, `Circle(0,0,4)` against `Circle(6,0,4)`
writes (3,5) and (3,-5); their midpoint (3,0) lies on the line through (0,0)
and (6,0), and (0,-10) is perpendicular to (6,0). -/
theorem Circle.intersection_points_symmetric_witness :
    Circle.intersection (fun x y : ℝ => Real.sqrt (x * x + y * y))
      (Circle.ofCoords 0 0 4) (Circle.ofCoords 6 0 4) (some ⟨0, 0⟩) (some ⟨0, 0⟩)
      = (true, some ⟨3, 5⟩, some ⟨3, -5⟩) ∧
    Line.Contains (⟨⟨0, 0⟩, ⟨6, 0⟩⟩ : Line ℝ)
      ⟨(Line.mk (⟨3, 5⟩ : Point ℝ) ⟨3, -5⟩).midX,
        (Line.mk (⟨3, 5⟩ : Point ℝ) ⟨3, -5⟩).midY⟩ ∧
    ((3 : ℝ) - 3) * (6 - 0) + (-5 - 5) * (0 - 0) = 0 :=
  ⟨real_example_points,
    (Circle.intersection_points_symmetric _ (Circle.ofCoords 0 0 4)
      (Circle.ofCoords 6 0 4) ⟨0, 0⟩ ⟨0, 0⟩ ⟨3, 5⟩ ⟨3, -5⟩ real_example_points).2.2.1,
    (Circle.intersection_points_symmetric _ (Circle.ofCoords 0 0 4)
      (Circle.ofCoords 6 0 4) ⟨0, 0⟩ ⟨0, 0⟩ ⟨3, 5⟩ ⟨3, -5⟩ real_example_points).2.2.2.1⟩

/-! The source on doubles: where the statements over exact reals fail. -/

theorem Double.log2Aux_spec (f n : ℕ) (hf : n ≤ f) (hn : 1 ≤ n) :
    2 ^ Double.log2Aux f n ≤ n ∧ n < 2 ^ (Double.log2Aux f n + 1) := by
  induction f generalizing n with
  | zero => omega
  | succ f ih =>
    unfold Double.log2Aux
    by_cases h2 : 2 ≤ n
    · rw [if_pos h2]
      have hdiv : n / 2 ≤ f := by omega
      have hpos : 1 ≤ n / 2 := by omega
      obtain ⟨h1, h3⟩ := ih (n / 2) hdiv hpos
      rw [pow_succ, pow_succ] at *
      constructor <;> omega
    · rw [if_neg h2]
      simp only [pow_zero, zero_add, pow_one]
      omega

/-- `Double.log2 n` is the position of the leading bit of `n`. -/
theorem Double.log2_spec (n : ℕ) (hn : 1 ≤ n) :
    2 ^ Double.log2 n ≤ n ∧ n < 2 ^ (Double.log2 n + 1) :=
  Double.log2Aux_spec n n le_rfl hn

theorem Double.sqrtAux_spec (i n r : ℕ) (h1 : r * r ≤ n)
    (h2 : n < (r + 2 ^ i) * (r + 2 ^ i)) :
    Double.sqrtAux i n r * Double.sqrtAux i n r ≤ n ∧
    n < (Double.sqrtAux i n r + 1) * (Double.sqrtAux i n r + 1) := by
  induction i generalizing r with
  | zero =>
    unfold Double.sqrtAux
    rw [pow_zero] at h2
    exact ⟨h1, h2⟩
  | succ i ih =>
    unfold Double.sqrtAux
    by_cases h : (r + 2 ^ i) * (r + 2 ^ i) ≤ n
    · rw [if_pos h]
      apply ih _ h
      have e : r + 2 ^ i + 2 ^ i = r + 2 ^ (i + 1) := by
        rw [pow_succ]
        ring
      rw [e]
      exact h2
    · rw [if_neg h]
      exact ih _ h1 (not_le.1 h)

/-- `Double.isqrt n` is the integer square root of `n`. -/
theorem Double.isqrt_spec (n : ℕ) :
    Double.isqrt n * Double.isqrt n ≤ n ∧
    n < (Double.isqrt n + 1) * (Double.isqrt n + 1) := by
  unfold Double.isqrt
  apply Double.sqrtAux_spec
  · exact Nat.zero_le _
  · rw [zero_add, ← pow_add]
    rcases Nat.eq_zero_or_pos n with h0 | hpos
    · rw [h0]
      exact pow_pos two_pos _
    · refine lt_of_lt_of_le (Double.log2_spec n hpos).2 ?_
      apply Nat.pow_le_pow_right two_pos
      omega

/-- `Double.rne N D` is an integer nearest to `N/D`: it is within one half of
`N/D`, and it is even when `N/D` is half-way between two integers. -/
theorem Double.rne_spec (N D : ℕ) (hD : 0 < D) :
    2 * (Double.rne N D * D) ≤ 2 * N + D ∧ 2 * N ≤ 2 * (Double.rne N D * D) + D ∧
    ((2 * (Double.rne N D * D) = 2 * N + D ∨ 2 * N = 2 * (Double.rne N D * D) + D) →
      Double.rne N D % 2 = 0) := by
  have hdm : D * (N / D) + N % D = N := Nat.div_add_mod N D
  have hlt : N % D < D := Nat.mod_lt N hD
  have e1 : (N / D) * D = D * (N / D) := Nat.mul_comm _ _
  have e2 : (N / D + 1) * D = D * (N / D) + D := by ring
  unfold Double.rne
  simp only []
  by_cases c1 : 2 * (N % D) < D
  · rw [if_pos c1, e1]
    refine ⟨by omega, by omega, fun h => ?_⟩
    omega
  · rw [if_neg c1]
    by_cases c2 : D < 2 * (N % D)
    · rw [if_pos c2, e2]
      refine ⟨by omega, by omega, fun h => ?_⟩
      omega
    · rw [if_neg c2]
      by_cases c3 : N / D % 2 = 0
      · rw [if_pos c3, e1]
        exact ⟨by omega, by omega, fun _ => c3⟩
      · rw [if_neg c3, e2]
        exact ⟨by omega, by omega, fun _ => by omega⟩

theorem Double.zpow_eq (t : ℤ) :
    (2 : ℚ) ^ t = (2 : ℚ) ^ t.toNat / (2 : ℚ) ^ (-t).toNat := by
  rcases le_total 0 t with h | h
  · have e1 : (-t).toNat = 0 := Int.toNat_eq_zero.2 (by omega)
    have e2 : ((t.toNat : ℕ) : ℤ) = t := Int.toNat_of_nonneg h
    rw [e1, pow_zero, div_one, ← zpow_natCast, e2]
  · have e1 : t.toNat = 0 := Int.toNat_eq_zero.2 h
    have e2 : (((-t).toNat : ℕ) : ℤ) = -t := Int.toNat_of_nonneg (by omega)
    rw [e1, pow_zero, one_div, ← zpow_natCast, e2, zpow_neg, inv_inv]

/-- `Double.pow2le k n d` decides `2^k ≤ n/d`. -/
theorem Double.pow2le_iff (k : ℤ) (n d : ℕ) :
    Double.pow2le k n d = true ↔ (2 : ℚ) ^ k * d ≤ n := by
  have hpos : (0 : ℚ) < (2 : ℚ) ^ (-k).toNat := pow_pos two_pos _
  unfold Double.pow2le
  by_cases hk : 0 ≤ k
  · have e1 : (-k).toNat = 0 := Int.toNat_eq_zero.2 (by omega)
    rw [if_pos hk, decide_eq_true_iff, Double.zpow_eq, e1, pow_zero, div_one]
    constructor
    · intro h
      have h2 : ((d * 2 ^ k.toNat : ℕ) : ℚ) ≤ (n : ℚ) := by exact_mod_cast h
      push_cast at h2
      linarith
    · intro h
      have h2 : ((d * 2 ^ k.toNat : ℕ) : ℚ) ≤ (n : ℚ) := by
        push_cast
        linarith
      exact_mod_cast h2
  · have e1 : k.toNat = 0 := Int.toNat_eq_zero.2 (by omega)
    rw [if_neg hk, decide_eq_true_iff, Double.zpow_eq, e1, pow_zero, one_div,
      inv_mul_le_iff₀ hpos]
    constructor
    · intro h
      have h2 : ((d : ℕ) : ℚ) ≤ ((n * 2 ^ (-k).toNat : ℕ) : ℚ) := by exact_mod_cast h
      push_cast at h2
      linarith
    · intro h
      have h2 : ((d : ℕ) : ℚ) ≤ ((n * 2 ^ (-k).toNat : ℕ) : ℚ) := by
        push_cast
        linarith
      exact_mod_cast h2

/-- `Double.ilog2 n d` is the binary exponent of `n/d`. -/
theorem Double.ilog2_spec (n d : ℕ) (hn : 1 ≤ n) (hd : 1 ≤ d) :
    (2 : ℚ) ^ Double.ilog2 n d * d ≤ n ∧ (n : ℚ) < (2 : ℚ) ^ (Double.ilog2 n d + 1) * d := by
  obtain ⟨a1, a2⟩ := Double.log2_spec n hn
  obtain ⟨b1, b2⟩ := Double.log2_spec d hd
  have a1q : (2 : ℚ) ^ Double.log2 n ≤ n := by exact_mod_cast a1
  have a2q : (n : ℚ) < 2 ^ (Double.log2 n + 1) := by exact_mod_cast a2
  have b1q : (2 : ℚ) ^ Double.log2 d ≤ d := by exact_mod_cast b1
  have b2q : (d : ℚ) < 2 ^ (Double.log2 d + 1) := by exact_mod_cast b2
  have hk : (2 : ℚ) ^ ((Double.log2 n : ℤ) - (Double.log2 d : ℤ)) * 2 ^ Double.log2 d
      = 2 ^ Double.log2 n := by
    rw [zpow_sub₀ (two_ne_zero), zpow_natCast, zpow_natCast]
    field_simp
  have hkpos : (0 : ℚ) < (2 : ℚ) ^ ((Double.log2 n : ℤ) - (Double.log2 d : ℤ)) :=
    zpow_pos two_pos _
  rw [pow_succ] at a2q b2q
  unfold Double.ilog2
  simp only []
  by_cases h : Double.pow2le ((Double.log2 n : ℤ) - (Double.log2 d : ℤ)) n d = true
  · rw [if_pos h]
    refine ⟨(Double.pow2le_iff _ _ _).1 h, ?_⟩
    rw [zpow_add_one₀ two_ne_zero]
    nlinarith
  · rw [if_neg h]
    have h2 := not_le.1 (fun hle => h ((Double.pow2le_iff _ _ _).2 hle))
    rw [sub_add_cancel]
    refine ⟨?_, h2⟩
    rw [zpow_sub_one₀ two_ne_zero]
    have : (2 : ℚ) ^ ((Double.log2 n : ℤ) - (Double.log2 d : ℤ)) * 2⁻¹ * d
        < (2 : ℚ) ^ ((Double.log2 n : ℤ) - (Double.log2 d : ℤ)) * 2 ^ Double.log2 d := by
      have : (2 : ℚ)⁻¹ * d < 2 ^ Double.log2 d := by
        rw [inv_mul_lt_iff₀ two_pos]
        linarith
      nlinarith
    linarith

theorem Double.rne_close (n d m : ℕ) (t : ℤ) (hd : 0 < d)
    (r1 : 2 * (m * (d * 2 ^ t.toNat)) ≤ 2 * (n * 2 ^ (-t).toNat) + d * 2 ^ t.toNat)
    (r2 : 2 * (n * 2 ^ (-t).toNat) ≤ 2 * (m * (d * 2 ^ t.toNat)) + d * 2 ^ t.toNat) :
    2 * |(m : ℚ) * 2 ^ t - (n : ℚ) / (d : ℚ)| ≤ 2 ^ t := by
  have hdpos : (0 : ℚ) < (d : ℚ) := by exact_mod_cast hd
  have hA : (0 : ℚ) < (2 : ℚ) ^ (-t).toNat := pow_pos two_pos _
  have r1q : (2 : ℚ) * (m * (d * 2 ^ t.toNat))
      ≤ 2 * (n * 2 ^ (-t).toNat) + d * 2 ^ t.toNat := by
    exact_mod_cast r1
  have r2q : (2 : ℚ) * (n * 2 ^ (-t).toNat)
      ≤ 2 * (m * (d * 2 ^ t.toNat)) + d * 2 ^ t.toNat := by
    exact_mod_cast r2
  rw [Double.zpow_eq t]
  have key : (m : ℚ) * (2 ^ t.toNat / 2 ^ (-t).toNat) - (n : ℚ) / (d : ℚ)
      = (m * (d * 2 ^ t.toNat) - n * 2 ^ (-t).toNat) / (2 ^ (-t).toNat * d) := by
    field_simp
    ring
  have key2 : (2 : ℚ) ^ t.toNat / 2 ^ (-t).toNat
      = (d * 2 ^ t.toNat) / (2 ^ (-t).toNat * d) := by
    field_simp
    ring
  rw [key, key2, abs_div, abs_of_pos (mul_pos hA hdpos), ← mul_div_assoc,
    div_le_div_iff_of_pos_right (mul_pos hA hdpos)]
  have := abs_le.2 (show -(((d : ℚ) * 2 ^ t.toNat) / 2)
      ≤ (m : ℚ) * (d * 2 ^ t.toNat) - n * 2 ^ (-t).toNat ∧
      (m : ℚ) * (d * 2 ^ t.toNat) - n * 2 ^ (-t).toNat
        ≤ ((d : ℚ) * 2 ^ t.toNat) / 2 from ⟨by linarith, by linarith⟩)
  linarith

/-- For a positive `q`, `Double.ofRat q` is `m * 2^t` for a natural number
`m ≤ 2^53` with `|m * 2^t - q| ≤ 2^t / 2`, where `2^t` is the spacing of the
doubles at `q` (`t` is the binary exponent of `q` less 52, and at least -1074);
it is infinite when `m * 2^t` is `2^1024` or more. -/
theorem Double.ofRat_spec (q : ℚ) (hq : 0 < q) :
    ∃ m : ℕ, m ≤ 2 ^ 53 ∧
      2 * |(m : ℚ) * 2 ^ (max (Double.ilog2 q.num.natAbs q.den - 52) (-1074)) - q|
        ≤ 2 ^ (max (Double.ilog2 q.num.natAbs q.den - 52) (-1074)) ∧
      (Double.ofRat q
          = Double.fin (m * 2 ^ (max (Double.ilog2 q.num.natAbs q.den - 52) (-1074))) ∨
        (Double.ofRat q = Double.inf false ∧
          2 ^ 1024 ≤ m * 2 ^ (max (Double.ilog2 q.num.natAbs q.den - 52) (-1074)).toNat)) := by
  have hnum : 0 < q.num := Rat.num_pos.2 hq
  have hn : ((q.num.natAbs : ℕ) : ℚ) = (q.num : ℚ) := by
    rw [Nat.cast_natAbs, abs_of_pos hnum]
  have hqnd : (q.num.natAbs : ℚ) / (q.den : ℚ) = q := by
    rw [hn]
    exact Rat.num_div_den q
  have hdpos : (0 : ℚ) < (q.den : ℚ) := by exact_mod_cast q.den_pos
  have hn1 : 1 ≤ q.num.natAbs := Int.natAbs_pos.2 (ne_of_gt hnum)
  have hlt : q < (2 : ℚ) ^ (Double.ilog2 q.num.natAbs q.den + 1) := by
    have h := (Double.ilog2_spec q.num.natAbs q.den hn1 q.den_pos).2
    calc q = (q.num.natAbs : ℚ) / (q.den : ℚ) := hqnd.symm
      _ < (2 : ℚ) ^ (Double.ilog2 q.num.natAbs q.den + 1) := (div_lt_iff₀ hdpos).2 h
  have hle : (2 : ℚ) ^ (Double.ilog2 q.num.natAbs q.den + 1)
      ≤ (2 : ℚ) ^ (max (Double.ilog2 q.num.natAbs q.den - 52) (-1074) + 53) := by
    apply zpow_le_zpow_right₀ one_le_two
    have := le_max_left (Double.ilog2 q.num.natAbs q.den - 52) (-1074)
    omega
  generalize ht : max (Double.ilog2 q.num.natAbs q.den - 52) (-1074) = t at hle
  have hT : (0 : ℚ) < (2 : ℚ) ^ t := zpow_pos two_pos _
  have hD : 0 < q.den * 2 ^ t.toNat := Nat.mul_pos q.den_pos (pow_pos two_pos _)
  obtain ⟨r1, r2, -⟩ := Double.rne_spec (q.num.natAbs * 2 ^ (-t).toNat)
    (q.den * 2 ^ t.toNat) hD
  have hclose := Double.rne_close q.num.natAbs q.den _ t q.den_pos r1 r2
  rw [hqnd] at hclose
  refine ⟨Double.rne (q.num.natAbs * 2 ^ (-t).toNat) (q.den * 2 ^ t.toNat), ?_, hclose, ?_⟩
  · generalize Double.rne (q.num.natAbs * 2 ^ (-t).toNat) (q.den * 2 ^ t.toNat) = m
      at hclose
    have h1 := (abs_le.1 (show |(m : ℚ) * 2 ^ t - q| ≤ 2 ^ t / 2 by linarith)).2
    have e : (2 : ℚ) ^ (t + 53) = 2 ^ t * 2 ^ (53 : ℤ) := zpow_add₀ two_ne_zero t 53
    rw [e] at hle
    have h2 : (m : ℚ) * 2 ^ t < (2 ^ (53 : ℤ) + 1) * 2 ^ t := by linarith
    have h3 : (m : ℚ) < 2 ^ (53 : ℤ) + 1 := lt_of_mul_lt_mul_right h2 hT.le
    have h4 : (m : ℚ) < ((2 ^ 53 + 1 : ℕ) : ℚ) := by
      push_cast
      exact_mod_cast h3
    have h5 : m < 2 ^ 53 + 1 := by exact_mod_cast h4
    omega
  · unfold Double.ofRat
    rw [if_neg (ne_of_gt hq)]
    simp only [ht]
    have hneg : decide (q < 0) = false := decide_eq_false (not_lt.2 hq.le)
    rw [hneg]
    unfold Double.pack
    by_cases ho : 2 ^ 1024
        ≤ Double.rne (q.num.natAbs * 2 ^ (-t).toNat) (q.den * 2 ^ t.toNat) * 2 ^ t.toNat
    · rw [if_pos ho]
      exact Or.inr ⟨rfl, ho⟩
    · rw [if_neg ho]
      left
      congr 1
      rw [Rat.mkRat_eq_div, Double.zpow_eq t]
      simp only [Bool.false_eq_true, if_false]
      push_cast
      ring

/-- The rounding `Double.ofRat` and the operations on some familiar doubles:
`0.1` is `3602879701896397 / 2^55`, `0.1 + 0.2` is `0.30000000000000004`,
`1.0 / 3.0` is `6004799503160661 / 2^54`, the square root of 2 rounds to
`6369051672525773 / 2^52`, `hypot(3,4)` is 5, twice the largest double is
infinite and `2^-600 * 2^-600` underflows to 0. -/
theorem Double.ofRat_examples :
    Double.ofRat (1 / 10) = Double.fin (3602879701896397 / 2 ^ 55) ∧
    Double.add (Double.ofRat (1 / 10)) (Double.ofRat (2 / 10))
      = Double.ofRat (30000000000000004 / 10 ^ 17) ∧
    Double.div (Double.fin 1) (Double.fin 3) = Double.fin (6004799503160661 / 2 ^ 54) ∧
    Double.hypot (Double.fin 1) (Double.fin 1)
      = Double.fin (6369051672525773 / 2 ^ 52) ∧
    Double.hypot (Double.fin 3) (Double.fin 4) = Double.fin 5 ∧
    Double.add (Double.fin ((2 ^ 53 - 1) * 2 ^ 971)) (Double.fin ((2 ^ 53 - 1) * 2 ^ 971))
      = Double.inf false ∧
    Double.mul (Double.fin (1 / 2 ^ 600)) (Double.fin (1 / 2 ^ 600)) = Double.fin 0 := by
  decide!

/-- C11 fails on doubles: from the point `(0.1, 0.1)`, `translate(0.2, 0.2)`
followed by `translate(0.3, 0.3)` gives `0.6000000000000001` in both
coordinates, while `translate(0.2 + 0.3, 0.2 + 0.3)` gives `0.6`. -/
theorem binary64.Point.translate_translate_ne :
    binary64.Point.translate
        (binary64.Point.translate ⟨Double.ofRat (1 / 10), Double.ofRat (1 / 10)⟩
          (Double.ofRat (2 / 10)) (Double.ofRat (2 / 10)))
        (Double.ofRat (3 / 10)) (Double.ofRat (3 / 10))
      = ⟨Double.fin (5404319552844596 / 2 ^ 53), Double.fin (5404319552844596 / 2 ^ 53)⟩ ∧
    binary64.Point.translate ⟨Double.ofRat (1 / 10), Double.ofRat (1 / 10)⟩
        (Double.add (Double.ofRat (2 / 10)) (Double.ofRat (3 / 10)))
        (Double.add (Double.ofRat (2 / 10)) (Double.ofRat (3 / 10)))
      = ⟨Double.fin (5404319552844595 / 2 ^ 53), Double.fin (5404319552844595 / 2 ^ 53)⟩ ∧
    binary64.Point.translate
        (binary64.Point.translate ⟨Double.ofRat (1 / 10), Double.ofRat (1 / 10)⟩
          (Double.ofRat (2 / 10)) (Double.ofRat (2 / 10)))
        (Double.ofRat (3 / 10)) (Double.ofRat (3 / 10))
      ≠ binary64.Point.translate ⟨Double.ofRat (1 / 10), Double.ofRat (1 / 10)⟩
        (Double.add (Double.ofRat (2 / 10)) (Double.ofRat (3 / 10)))
        (Double.add (Double.ofRat (2 / 10)) (Double.ofRat (3 / 10))) := by
  decide!

/-- C13 fails on doubles: for the points (0,0) and (1,1), `distanceSq` is 2,
`distance` is the double `6369051672525773 / 2^52` next to the square root of
2, and the square of that double is `2.0000000000000004` when rounded and is
not 2 when taken exactly. -/
theorem binary64.Point.distanceSq_ne_sq_distance :
    binary64.Point.distanceSq ⟨Double.fin 0, Double.fin 0⟩ ⟨Double.fin 1, Double.fin 1⟩
      = Double.fin 2 ∧
    binary64.Point.distance ⟨Double.fin 0, Double.fin 0⟩ ⟨Double.fin 1, Double.fin 1⟩
      = Double.fin (6369051672525773 / 2 ^ 52) ∧
    Double.mul
        (binary64.Point.distance ⟨Double.fin 0, Double.fin 0⟩ ⟨Double.fin 1, Double.fin 1⟩)
        (binary64.Point.distance ⟨Double.fin 0, Double.fin 0⟩ ⟨Double.fin 1, Double.fin 1⟩)
      = Double.fin (4503599627370497 / 2 ^ 51) ∧
    binary64.Point.distanceSq ⟨Double.fin 0, Double.fin 0⟩ ⟨Double.fin 1, Double.fin 1⟩
      ≠ Double.mul
        (binary64.Point.distance ⟨Double.fin 0, Double.fin 0⟩ ⟨Double.fin 1, Double.fin 1⟩)
        (binary64.Point.distance ⟨Double.fin 0, Double.fin 0⟩ ⟨Double.fin 1, Double.fin 1⟩) ∧
    ((6369051672525773 : ℚ) / 2 ^ 52) ^ 2 ≠ 2 := by
  refine ⟨by decide!, by decide!, by decide!, by decide!, by norm_num⟩

/-- C4 fails on doubles: the x axis, through (0,0) and `(2^-600, 0)`, against
the y axis, through (0,0) and `(0, 2^-600)`.  Both lines are non-degenerate,
the cross product of their directions is `2^-1200`, not 0, and `(0, 2^-600)`
does not lie on the x axis; but the two products of `denom` underflow to 0 and
the call returns `COINCIDENT`. -/
theorem binary64.Line.intersection_axes_coincident :
    (binary64.Line.intersection
      ⟨⟨Double.fin 0, Double.fin 0⟩, ⟨Double.fin (1 / 2 ^ 600), Double.fin 0⟩⟩
      ⟨⟨Double.fin 0, Double.fin 0⟩, ⟨Double.fin 0, Double.fin (1 / 2 ^ 600)⟩⟩
      none).1 = Intersection.COINCIDENT ∧
    Double.ofRat (1 / 2 ^ 600) = Double.fin (1 / 2 ^ 600) ∧
    (⟨Double.fin 0, Double.fin 0⟩ : Point Double)
      ≠ ⟨Double.fin (1 / 2 ^ 600), Double.fin 0⟩ ∧
    (⟨Double.fin 0, Double.fin 0⟩ : Point Double)
      ≠ ⟨Double.fin 0, Double.fin (1 / 2 ^ 600)⟩ ∧
    (Line.ofCoords (0 : ℚ) 0 (1 / 2 ^ 600) 0).dx * (Line.ofCoords (0 : ℚ) 0 0 (1 / 2 ^ 600)).dy
      - (Line.ofCoords (0 : ℚ) 0 (1 / 2 ^ 600) 0).dy
        * (Line.ofCoords (0 : ℚ) 0 0 (1 / 2 ^ 600)).dx ≠ 0 ∧
    ¬ (Line.ofCoords (0 : ℚ) 0 (1 / 2 ^ 600) 0).Contains
      (Line.ofCoords (0 : ℚ) 0 0 (1 / 2 ^ 600)).p2 := by
  refine ⟨by decide!, by decide!, by decide!, by decide!, ?_, ?_⟩
  · norm_num [Line.ofCoords, lindenb.math.geom.Line.dx, lindenb.math.geom.Line.dy]
  · rintro ⟨t, -, h⟩
    norm_num [Line.ofCoords, lindenb.math.geom.Line.dy] at h

/-- C15 fails on doubles: for `Circle(0,0,2^600)` against
`Circle(2^600,0,2^600)` the squares `r*r` overflow, the call returns `true` and
both points it writes are `(NaN, NaN)`: their dot product with the
center-to-center vector is NaN, which is not `== 0`, and no midpoint lies on
the line through the centers. -/
theorem binary64.Circle.intersection_points_nan :
    binary64.Circle.intersection
        ⟨⟨Double.fin 0, Double.fin 0⟩, Double.fin (2 ^ 600)⟩
        ⟨⟨Double.fin (2 ^ 600), Double.fin 0⟩, Double.fin (2 ^ 600)⟩
        (some ⟨Double.fin 0, Double.fin 0⟩) (some ⟨Double.fin 0, Double.fin 0⟩)
      = (true, some ⟨Double.nan, Double.nan⟩, some ⟨Double.nan, Double.nan⟩) ∧
    Double.ofRat (2 ^ 600) = Double.fin (2 ^ 600) ∧
    Double.eq
      (Double.add
        (Double.mul (Double.sub Double.nan Double.nan)
          (Double.sub (Double.fin (2 ^ 600)) (Double.fin 0)))
        (Double.mul (Double.sub Double.nan Double.nan)
          (Double.sub (Double.fin 0) (Double.fin 0))))
      (Double.fin 0) = false := by
  decide!

/-- On doubles of ordinary size the two points need not be perpendicular to the
center line either: `Circle(0,0,12)` against `Circle(3,4,13)` has `d = 5`,
`a = 0`, `h = 12`, and writes `q1 = (-c*4, fl(3*c))` and `q2 = (c*4, -fl(3*c))`
with `c = fl(12/5)`; the exact dot product of `q2 - q1` with `(3, 4)` is
`2^-48`. -/
theorem binary64.Circle.intersection_points_not_perpendicular :
    binary64.Circle.intersection
        ⟨⟨Double.fin 0, Double.fin 0⟩, Double.fin 12⟩
        ⟨⟨Double.fin 3, Double.fin 4⟩, Double.fin 13⟩
        (some ⟨Double.fin 0, Double.fin 0⟩) (some ⟨Double.fin 0, Double.fin 0⟩)
      = (true,
        some ⟨Double.fin (-(5404319552844595 / 2 ^ 49)),
          Double.fin (2026619832316723 / 2 ^ 48)⟩,
        some ⟨Double.fin (5404319552844595 / 2 ^ 49),
          Double.fin (-(2026619832316723 / 2 ^ 48))⟩) ∧
    ((5404319552844595 : ℚ) / 2 ^ 49 - -(5404319552844595 / 2 ^ 49)) * (3 - 0)
      + (-(2026619832316723 / 2 ^ 48) - 2026619832316723 / 2 ^ 48) * (4 - 0)
      = 1 / 2 ^ 48 := by
  refine ⟨by decide!, by norm_num⟩

/-- C19 fails on doubles: the line through (0,0) and (1,3) against the line
through (0,0) and `(1, 3.0000000000000004)` is classified `INTERESECTION`;
after both are translated by `(0, 10)` the second end point of the second line
rounds to (1,13), its `dy()` goes from `3.0000000000000004` to 3, and the
classification is `COINCIDENT`. -/
theorem binary64.Line.intersection_translate_changes :
    (binary64.Line.intersection
      ⟨⟨Double.fin 0, Double.fin 0⟩, ⟨Double.fin 1, Double.fin 3⟩⟩
      ⟨⟨Double.fin 0, Double.fin 0⟩,
        ⟨Double.fin 1, Double.ofRat (30000000000000004 / 10 ^ 16)⟩⟩
      none).1 = Intersection.INTERESECTION ∧
    (binary64.Line.intersection
      (binary64.Line.translate
        ⟨⟨Double.fin 0, Double.fin 0⟩, ⟨Double.fin 1, Double.fin 3⟩⟩
        (Double.fin 0) (Double.fin 10))
      (binary64.Line.translate
        ⟨⟨Double.fin 0, Double.fin 0⟩,
          ⟨Double.fin 1, Double.ofRat (30000000000000004 / 10 ^ 16)⟩⟩
        (Double.fin 0) (Double.fin 10))
      none).1 = Intersection.COINCIDENT ∧
    binary64.Line.dy
        ⟨⟨Double.fin 0, Double.fin 0⟩,
          ⟨Double.fin 1, Double.ofRat (30000000000000004 / 10 ^ 16)⟩⟩
      = Double.fin (3 + 1 / 2 ^ 51) ∧
    binary64.Line.dy
        (binary64.Line.translate
          ⟨⟨Double.fin 0, Double.fin 0⟩,
            ⟨Double.fin 1, Double.ofRat (30000000000000004 / 10 ^ 16)⟩⟩
          (Double.fin 0) (Double.fin 10))
      = Double.fin 3 := by
  decide!

end lindenb.math.geom
